import Mathlib

/-! # Drive database lookup and SMART record layouts

A shallow embedding of the two source files of the repository.

* `drivedb/drivedb.go` (namespace `Drivedb`): the catalog types `AttrConv`,
  `DriveModel`, `DriveDb`, the method `DriveDb.LookupDrive`, the loader `OpenDriveDb`
  and the built-in catalog `DbYaml`.
* `sat.go` (namespace `Smart`): the wire layouts of `IdentifyDeviceData`, `smartAttr`
  and `smartPage`.

Go maps are reference values.  `DriveModel.Presets` is therefore embedded as an
optional reference (`none` is the nil map) into an explicit heap of maps, and
`LookupDrive` threads that heap: the assignment `model = d` copies the reference, not
the map.  Run-time panics (assignment to an entry of a nil map, a method call through a
nil `*regexp.Regexp`) are results of type `Fault`.

The regular-expression engine and the YAML decoder belong to libraries; the matching
relation `Regexp.Match`, `regexp.Compile` and `yaml.Unmarshal` are the parameters
`Match`, `Compile` and `Unmarshal` of the embedding.
-/

namespace Drivedb

/-! ## Data model -/

/-- SMART attribute conversion rule (`type AttrConv struct`). -/
structure AttrConv where
  Conv : String
  Name : String
deriving DecidableEq, Repr

/-- The contents of a Go `map[string]AttrConv`: an association list.  A Go map holds
every key at most once (`NodupKeys`). -/
abbrev PresetMap := List (String × AttrConv)

/-- The key uniqueness every Go map has. -/
def NodupKeys (m : PresetMap) : Prop := (m.map Prod.fst).Nodup

instance (m : PresetMap) : Decidable (NodupKeys m) := by
  unfold NodupKeys; infer_instance

/-- The map read `v, exists := m[id]`. -/
def mapGet : PresetMap → String → Option AttrConv
  | [], _ => none
  | (k, v) :: m, id => if k = id then some v else mapGet m id

/-- The map write `m[id] = v`: replaces the value of a key that exists, adds the key
otherwise. -/
def mapSet : PresetMap → String → AttrConv → PresetMap
  | [], id, v => [(id, v)]
  | (k, w) :: m, id, v => if k = id then (id, v) :: m else (k, w) :: mapSet m id v

/-- A reference to a map on the heap. -/
abbrev MapRef := Nat

/-- The heap of `map[string]AttrConv` values. -/
abbrev Heap := MapRef → PresetMap

/-- The heap after the map at `r` has become `m`. -/
def heapSet (h : Heap) (r : MapRef) (m : PresetMap) : Heap :=
  fun r' => if r' = r then m else h r'

/-- Every map of the heap has unique keys. -/
def HeapWF (h : Heap) : Prop := ∀ r, NodupKeys (h r)

/-- A compiled `*regexp.Regexp`, identified by the expression it was compiled from. -/
structure Regexp where
  expr : String
deriving DecidableEq, Repr

/-- An ATA IDENTIFY value, `ident []byte`. -/
abbrev Ident := List Nat

/-- The struct `DriveModel`.  `Presets` is a map reference (`none`: nil map),
`CompiledRegexp` a pointer (`none`: nil). -/
structure DriveModel where
  Family : String
  ModelRegex : String
  FirmwareRegex : String
  WarningMsg : String
  Presets : Option MapRef
  CompiledRegexp : Option Regexp
deriving DecidableEq, Repr

/-- The struct `DriveDb`. -/
structure DriveDb where
  Drives : List DriveModel
deriving DecidableEq, Repr

/-- Run-time panics of `LookupDrive`. -/
inductive Fault where
  | nilMapWrite
  | nilRegexp
deriving DecidableEq, Repr

instance {ε α : Type} [DecidableEq ε] [DecidableEq α] : DecidableEq (Except ε α)
  | .ok a, .ok b => if h : a = b then isTrue (by rw [h]) else isFalse (by intro e; cases e; exact h rfl)
  | .error a, .error b =>
    if h : a = b then isTrue (by rw [h]) else isFalse (by intro e; cases e; exact h rfl)
  | .ok _, .error _ => isFalse (by intro e; cases e)
  | .error _, .ok _ => isFalse (by intro e; cases e)

/-- The zero value `var model DriveModel`. -/
def zeroModel : DriveModel :=
  { Family := "", ModelRegex := "", FirmwareRegex := "", WarningMsg := "",
    Presets := none, CompiledRegexp := none }

/-- Go `strings.HasPrefix`. -/
def HasPrefix (s pre : String) : Bool := pre.toList.isPrefixOf s.toList

/-! ## `LookupDrive` -/

/-- One iteration of `for id, p := range d.Presets`, on the contents `m` of
`model.Presets`: an id that exists keeps its name when `p.Name` is empty. -/
def mergeEntry (m : PresetMap) (e : String × AttrConv) : PresetMap :=
  let id := e.1
  let p := e.2
  let p : AttrConv :=
    match mapGet m id with
    | some q => if p.Name = "" then { p with Name := q.Name } else p
    | none => p
  mapSet m id { Name := p.Name, Conv := p.Conv }

/-- The pairs `range d.Presets` yields; a nil map yields none.  Go leaves the order
unspecified; the embedding takes the order of the association list. -/
def rangePresets (presets : Option MapRef) (h : Heap) : List (String × AttrConv) :=
  match presets with
  | none => []
  | some r => h r

/-- The loop `for id, p := range d.Presets { ... model.Presets[id] = ... }` over the
pairs of `d.Presets`, writing through the reference `target` held in `model.Presets`.
A write through the nil map panics. -/
def mergePresets : List (String × AttrConv) → Option MapRef → Heap → Except Fault Heap
  | [], _, h => .ok h
  | _ :: _, none, _ => .error .nilMapWrite
  | e :: rest, some r, h => mergePresets rest (some r) (heapSet h r (mergeEntry (h r) e))

/-- The loop `for _, d := range db.Drives` of `LookupDrive`, from the entries still to
visit, the current `model` and the heap. -/
def lookupLoop (Match : Regexp → Ident → Bool) (ident : Ident) :
    List DriveModel → DriveModel → Heap → Except Fault (DriveModel × Heap)
  | [], model, h => .ok (model, h)
  | d :: ds, model, h =>
    if HasPrefix d.Family "$Id" then
      lookupLoop Match ident ds model h
    else if d.Family = "DEFAULT" then
      lookupLoop Match ident ds d h
    else
      match d.CompiledRegexp with
      | none => .error .nilRegexp
      | some re =>
        if Match re ident then
          let model : DriveModel :=
            { model with
              Family := d.Family
              ModelRegex := d.ModelRegex
              FirmwareRegex := d.FirmwareRegex
              WarningMsg := d.WarningMsg
              CompiledRegexp := d.CompiledRegexp }
          match mergePresets (rangePresets d.Presets h) model.Presets h with
          | .error f => .error f
          | .ok h' => .ok (model, h')
        else
          lookupLoop Match ident ds model h

/-- The method `func (db *DriveDb) LookupDrive(ident []byte) DriveModel`: the returned
model together with the heap the call leaves behind, or the panic. -/
def LookupDrive (Match : Regexp → Ident → Bool) (db : DriveDb) (h : Heap) (ident : Ident) :
    Except Fault (DriveModel × Heap) :=
  lookupLoop Match ident db.Drives zeroModel h

/-! ## Observations -/

/-- What a caller reads through a `DriveModel`: its fields, and the contents of its
`Presets` map in heap `h`. -/
structure RuleSet where
  Family : String
  ModelRegex : String
  FirmwareRegex : String
  WarningMsg : String
  Presets : Option PresetMap
  CompiledRegexp : Option Regexp
deriving DecidableEq, Repr

/-- The rule-set a `DriveModel` denotes in heap `h`. -/
def view (h : Heap) (m : DriveModel) : RuleSet :=
  { Family := m.Family, ModelRegex := m.ModelRegex, FirmwareRegex := m.FirmwareRegex,
    WarningMsg := m.WarningMsg, Presets := m.Presets.map h,
    CompiledRegexp := m.CompiledRegexp }

/-- The rule-set `LookupDrive` returns, read when the call returns. -/
def resolve (Match : Regexp → Ident → Bool) (db : DriveDb) (h : Heap) (ident : Ident) :
    Except Fault RuleSet :=
  match LookupDrive Match db h ident with
  | .error f => .error f
  | .ok (m, h') => .ok (view h' m)

/-- The bytes of a string (of ASCII characters). -/
def bytesOf (s : String) : Ident := s.toList.map Char.toNat

/-- Whether `pat` occurs in `s` as a contiguous block. -/
def occursIn (pat : List Nat) : List Nat → Bool
  | [] => pat.isPrefixOf []
  | b :: s => pat.isPrefixOf (b :: s) || occursIn pat s

/-- The matching relation of expressions without metacharacters: such an expression
matches the inputs in which its bytes occur. -/
def literalMatch (re : Regexp) (ident : Ident) : Bool := occursIn (bytesOf re.expr) ident

/-! ## Vocabulary of the specification -/

/-- A placeholder entry: its family begins with the marker `$Id`. -/
def isPlaceholder (d : DriveModel) : Bool := HasPrefix d.Family "$Id"

/-- A family entry: neither a placeholder nor `DEFAULT`. -/
def isFamilyEntry (d : DriveModel) : Bool := !isPlaceholder d && !decide (d.Family = "DEFAULT")

/-- The compiled matcher of entry `d` accepts `ident`. -/
def patternMatches (Match : Regexp → Ident → Bool) (ident : Ident) (d : DriveModel) : Bool :=
  match d.CompiledRegexp with
  | some re => Match re ident
  | none => false

/-- The compiled matcher of entry `d` exists and does not accept `ident`. -/
def patternRejects (Match : Regexp → Ident → Bool) (ident : Ident) (d : DriveModel) : Bool :=
  match d.CompiledRegexp with
  | some re => !Match re ident
  | none => false

/-- A family entry whose pattern matches the blob. -/
def matchesEntry (Match : Regexp → Ident → Bool) (ident : Ident) (d : DriveModel) : Bool :=
  isFamilyEntry d && patternMatches Match ident d

/-- An entry that yields no match: a placeholder, or a family entry whose pattern
does not match the blob. -/
def rejectsEntry (Match : Regexp → Ident → Bool) (ident : Ident) (d : DriveModel) : Bool :=
  isPlaceholder d || (isFamilyEntry d && patternRejects Match ident d)

/-- An entry that yields no match, or a `DEFAULT` entry. -/
def passesEntry (Match : Regexp → Ident → Bool) (ident : Ident) (d : DriveModel) : Bool :=
  rejectsEntry Match ident d || decide (d.Family = "DEFAULT")

/-- The catalog `drives` reads `pre`, then the `DEFAULT` entry `D`, then `mid`, then
`E`, then `post`, where `E` is the first family entry whose pattern matches the blob
and `D` is the last `DEFAULT` entry before it. -/
def FirstMatchAfterDefault (Match : Regexp → Ident → Bool) (ident : Ident)
    (drives pre : List DriveModel) (D : DriveModel) (mid : List DriveModel)
    (E : DriveModel) (post : List DriveModel) : Prop :=
  drives = pre ++ D :: (mid ++ E :: post) ∧
  (∀ x ∈ pre, passesEntry Match ident x = true) ∧
  D.Family = "DEFAULT" ∧
  (∀ x ∈ mid, rejectsEntry Match ident x = true) ∧
  matchesEntry Match ident E = true

instance (Match : Regexp → Ident → Bool) (ident : Ident)
    (drives pre : List DriveModel) (D : DriveModel) (mid : List DriveModel)
    (E : DriveModel) (post : List DriveModel) :
    Decidable (FirstMatchAfterDefault Match ident drives pre D mid E post) := by
  unfold FirstMatchAfterDefault; infer_instance

/-- The value the merge loop leaves at an id for which the matched entry holds `p`,
when the id held `old` before. -/
def mergedValue (old : Option AttrConv) (p : AttrConv) : AttrConv :=
  match old with
  | some q => if p.Name = "" then { Conv := p.Conv, Name := q.Name } else p
  | none => p

/-- The heap the merge loop leaves when it does not panic. -/
def mergedHeap (pairs : List (String × AttrConv)) (target : Option MapRef) (h : Heap) : Heap :=
  match target with
  | none => h
  | some r => heapSet h r (pairs.foldl mergeEntry (h r))

/-- The model after the five field assignments of a match on `d`. -/
def withHeader (model d : DriveModel) : DriveModel :=
  { Family := d.Family, ModelRegex := d.ModelRegex, FirmwareRegex := d.FirmwareRegex,
    WarningMsg := d.WarningMsg, Presets := model.Presets,
    CompiledRegexp := d.CompiledRegexp }

/-- The catalog as it reads in heap `h`: every entry with the contents of its presets
map. -/
def catalogView (db : DriveDb) (h : Heap) : List RuleSet := db.Drives.map (view h)

/-- The catalog as it reads after a call of `LookupDrive`. -/
def catalogAfterLookup (Match : Regexp → Ident → Bool) (db : DriveDb) (h : Heap)
    (ident : Ident) : Except Fault (List RuleSet) :=
  match LookupDrive Match db h ident with
  | .error f => .error f
  | .ok (_, h') => .ok (catalogView db h')

/-- The rule-set `LookupDrive` returns for `identB` after a preceding call for
`identA` on the same catalog. -/
def resolveAfter (Match : Regexp → Ident → Bool) (db : DriveDb) (h : Heap)
    (identA identB : Ident) : Except Fault RuleSet :=
  match LookupDrive Match db h identA with
  | .error f => .error f
  | .ok (_, h') => resolve Match db h' identB

/-- The catalog without its placeholder entries. -/
def withoutPlaceholders (db : DriveDb) : DriveDb :=
  ⟨db.Drives.filter (fun d => !isPlaceholder d)⟩

/-! ## A sample catalog -/

/-- A placeholder entry as catalogs derived from `drivedb.h` carry it; its pattern is
`-`. -/
def exPlaceholder : DriveModel :=
  { Family := "$Id: drivedb.h", ModelRegex := "-", FirmwareRegex := "-", WarningMsg := "",
    Presets := none, CompiledRegexp := some ⟨"-"⟩ }

/-- A `DEFAULT` entry whose presets are the map at reference `0`. -/
def exDefault : DriveModel :=
  { Family := "DEFAULT", ModelRegex := "-", FirmwareRegex := "-",
    WarningMsg := "Default settings", Presets := some 0, CompiledRegexp := some ⟨"-"⟩ }

/-- A `DEFAULT` entry without a `presets` key: its map is nil. -/
def exDefaultNil : DriveModel :=
  { Family := "DEFAULT", ModelRegex := "-", FirmwareRegex := "-",
    WarningMsg := "Default settings", Presets := none, CompiledRegexp := some ⟨"-"⟩ }

/-- A family entry with overrides, the map at reference `1`. -/
def exAcme : DriveModel :=
  { Family := "Acme SSDs", ModelRegex := "ACME", FirmwareRegex := "", WarningMsg := "",
    Presets := some 1, CompiledRegexp := some ⟨"ACME"⟩ }

/-- A second family entry that also matches Acme devices, the map at reference `2`. -/
def exAcmePro : DriveModel :=
  { Family := "Acme Pro SSDs", ModelRegex := "ACME X", FirmwareRegex := "", WarningMsg := "",
    Presets := some 2, CompiledRegexp := some ⟨"ACME X"⟩ }

/-- A family entry without presets. -/
def exZeta : DriveModel :=
  { Family := "Zeta disks", ModelRegex := "ZETA", FirmwareRegex := "", WarningMsg := "",
    Presets := none, CompiledRegexp := some ⟨"ZETA"⟩ }

/-- The maps of the sample catalog, as a freshly loaded catalog holds them. -/
def exHeap : Heap := fun r =>
  if r = 0 then
    [("9", ⟨"raw24(raw8)", "Power_On_Hours"⟩), ("194", ⟨"raw48", "Temperature_Celsius"⟩)]
  else if r = 1 then
    [("194", ⟨"tempminmax", ""⟩), ("233", ⟨"raw48", "Media_Wearout_Indicator"⟩)]
  else if r = 2 then
    [("9", ⟨"raw48", "Power_On_Seconds"⟩)]
  else []

/-- The sample catalog. -/
def exDb : DriveDb := ⟨[exPlaceholder, exDefault, exZeta, exAcme, exAcmePro]⟩

/-- An identification blob of an Acme device. -/
def exIdentAcme : Ident := bytesOf "ACME X100"

/-- An identification blob no family entry matches. -/
def exIdentOther : Ident := bytesOf "Generic disk"

/-! ## Valid catalogs and iteration order -/

/-- Before every family entry of the catalog there is a `DEFAULT` entry, and the
nearest such entry, the one the loop holds as its model on reaching the family entry,
has a presets map. -/
def DefaultPrecedesFamilies (drives : List DriveModel) : Prop :=
  ∀ pre E post, drives = pre ++ E :: post → isFamilyEntry E = true →
    ∃ pre1 D pre2, pre = pre1 ++ D :: pre2 ∧ D.Family = "DEFAULT" ∧ D.Presets ≠ none ∧
      ∀ x ∈ pre2, x.Family ≠ "DEFAULT"

/-- A valid catalog: every family entry has a compiled matcher, and the nearest
`DEFAULT` entry before every family entry exists and has a presets map. -/
def ValidCatalog (db : DriveDb) : Prop :=
  (∀ d ∈ db.Drives, isFamilyEntry d = true → d.CompiledRegexp ≠ none) ∧
  DefaultPrecedesFamilies db.Drives

/-- Two heaps hold the same maps, their entries in possibly different order: two
orders in which `range` may visit them. -/
def SameMaps (h1 h2 : Heap) : Prop := ∀ r, (h1 r).Perm (h2 r)

/-- Two outcomes of `LookupDrive` agree: the same panic, or the same model with heaps
that hold the same value at every id of every map. -/
def SameOutcome (a b : Except Fault (DriveModel × Heap)) : Prop :=
  match a, b with
  | .ok (m1, h1), .ok (m2, h2) => m1 = m2 ∧ ∀ r id, mapGet (h1 r) id = mapGet (h2 r) id
  | .error f1, .error f2 => f1 = f2
  | _, _ => False

/-- The maps of the sample catalog with their entries in another order. -/
def exHeapReordered : Heap := fun r =>
  if r = 0 then
    [("194", ⟨"raw48", "Temperature_Celsius"⟩), ("9", ⟨"raw24(raw8)", "Power_On_Hours"⟩)]
  else if r = 1 then
    [("233", ⟨"raw48", "Media_Wearout_Indicator"⟩), ("194", ⟨"tempminmax", ""⟩)]
  else if r = 2 then
    [("9", ⟨"raw48", "Power_On_Seconds"⟩)]
  else []

/-- A matching relation under which the pattern `-` of the `DEFAULT` entry matches
nothing, and every other pattern matches as under `literalMatch`. -/
def exNoHyphenMatch (re : Regexp) (ident : Ident) : Bool :=
  !decide (re.expr = "-") && literalMatch re ident

/-! ## `OpenDriveDb` -/

/-- Go `error` values. -/
abbrev Error := String

/-- What `yaml.Unmarshal([]byte(dbYaml), &db)` leaves: the decoded `db`, the heap that
holds its maps, and the error (`none` is nil). -/
structure Unmarshalled where
  db : DriveDb
  heap : Heap
  err : Option Error

/-- The results `(DriveDb, error)` of `OpenDriveDb`, and the heap that holds the maps
of the catalog. -/
structure Opened where
  db : DriveDb
  heap : Heap
  err : Option Error

/-- The assignment `db.Drives[i].CompiledRegexp, _ = regexp.Compile(d.ModelRegex)`:
the error is discarded, and `regexp.Compile` returns the nil pointer with an error. -/
def compileEntry (Compile : String → Except Error Regexp) (d : DriveModel) : DriveModel :=
  { d with
    CompiledRegexp :=
      match Compile d.ModelRegex with
      | .ok re => some re
      | .error _ => none }

/-- The function `OpenDriveDb(dbYaml string) (DriveDb, error)`.  The YAML decoder and
`regexp.Compile` belong to libraries and are the parameters `Unmarshal` and `Compile`;
`DbYaml` is the text of the built-in catalog. -/
def OpenDriveDb (Unmarshal : String → Unmarshalled) (Compile : String → Except Error Regexp)
    (DbYaml : String) (dbYaml : String) : Opened :=
  let dbYaml := if dbYaml = "" then DbYaml else dbYaml
  let u := Unmarshal dbYaml
  match u.err with
  | some e => { db := u.db, heap := u.heap, err := some e }
  | none => { db := ⟨u.db.Drives.map (compileEntry Compile)⟩, heap := u.heap, err := none }

/-- The `presets` of the one entry of the YAML document `DbYaml`, in document order. -/
def DbYamlPresets : PresetMap :=
  [ ("1", ⟨"raw48", "Raw_Read_Error_Rate"⟩),
    ("2", ⟨"raw48", "Throughput_Performance"⟩),
    ("3", ⟨"raw16(avg16)", "Spin_Up_Time"⟩),
    ("4", ⟨"raw48", "Start_Stop_Count"⟩),
    ("5", ⟨"raw16(raw16)", "Reallocated_Sector_Ct"⟩),
    ("6", ⟨"raw48", "Read_Channel_Margin"⟩),
    ("7", ⟨"raw48", "Seek_Error_Rate"⟩),
    ("8", ⟨"raw48", "Seek_Time_Performance"⟩),
    ("9", ⟨"raw24(raw8)", "Power_On_Hours"⟩),
    ("10", ⟨"raw48", "Spin_Retry_Count"⟩),
    ("11", ⟨"raw48", "Calibration_Retry_Count"⟩),
    ("12", ⟨"raw48", "Power_Cycle_Count"⟩),
    ("13", ⟨"raw48", "Read_Soft_Error_Rate"⟩),
    ("175", ⟨"raw48", "Program_Fail_Count_Chip"⟩),
    ("176", ⟨"raw48", "Erase_Fail_Count_Chip"⟩),
    ("177", ⟨"raw48", "Wear_Leveling_Count"⟩),
    ("178", ⟨"raw48", "Used_Rsvd_Blk_Cnt_Chip"⟩),
    ("179", ⟨"raw48", "Used_Rsvd_Blk_Cnt_Tot"⟩),
    ("180", ⟨"raw48", "Unused_Rsvd_Blk_Cnt_Tot"⟩),
    ("181", ⟨"raw48", "Program_Fail_Cnt_Total"⟩),
    ("182", ⟨"raw48", "Erase_Fail_Count_Total"⟩),
    ("183", ⟨"raw48", "Runtime_Bad_Block"⟩),
    ("184", ⟨"raw48", "End-to-End_Error"⟩),
    ("187", ⟨"raw48", "Reported_Uncorrect"⟩),
    ("188", ⟨"raw48", "Command_Timeout"⟩),
    ("189", ⟨"raw48", "High_Fly_Writes"⟩),
    ("190", ⟨"tempminmax", "Airflow_Temperature_Cel"⟩),
    ("191", ⟨"raw48", "G-Sense_Error_Rate"⟩),
    ("192", ⟨"raw48", "Power-Off_Retract_Count"⟩),
    ("193", ⟨"raw48", "Load_Cycle_Count"⟩),
    ("194", ⟨"tempminmax", "Temperature_Celsius"⟩),
    ("195", ⟨"raw48", "Hardware_ECC_Recovered"⟩),
    ("196", ⟨"raw16(raw16)", "Reallocated_Event_Count"⟩),
    ("197", ⟨"raw48", "Current_Pending_Sector"⟩),
    ("198", ⟨"raw48", "Offline_Uncorrectable"⟩),
    ("199", ⟨"raw48", "UDMA_CRC_Error_Count"⟩),
    ("200", ⟨"raw48", "Multi_Zone_Error_Rate"⟩),
    ("201", ⟨"raw48", "Soft_Read_Error_Rate"⟩),
    ("202", ⟨"raw48", "Data_Address_Mark_Errs"⟩),
    ("203", ⟨"raw48", "Run_Out_Cancel"⟩),
    ("204", ⟨"raw48", "Soft_ECC_Correction"⟩),
    ("205", ⟨"raw48", "Thermal_Asperity_Rate"⟩),
    ("206", ⟨"raw48", "Flying_Height"⟩),
    ("207", ⟨"raw48", "Spin_High_Current"⟩),
    ("208", ⟨"raw48", "Spin_Buzz"⟩),
    ("209", ⟨"raw48", "Offline_Seek_Performnce"⟩),
    ("220", ⟨"raw48", "Disk_Shift"⟩),
    ("221", ⟨"raw48", "G-Sense_Error_Rate"⟩),
    ("222", ⟨"raw48", "Loaded_Hours"⟩),
    ("223", ⟨"raw48", "Load_Retry_Count"⟩),
    ("224", ⟨"raw48", "Load_Friction"⟩),
    ("225", ⟨"raw48", "Load_Cycle_Count"⟩),
    ("226", ⟨"raw48", "Load-in_Time"⟩),
    ("227", ⟨"raw48", "Torq-amp_Count"⟩),
    ("228", ⟨"raw48", "Power-off_Retract_Count"⟩),
    ("230", ⟨"raw48", "Head_Amplitude"⟩),
    ("231", ⟨"raw48", "Temperature_Celsius"⟩),
    ("232", ⟨"raw48", "Available_Reservd_Space"⟩),
    ("233", ⟨"raw48", "Media_Wearout_Indicator"⟩),
    ("240", ⟨"raw24(raw8)", "Head_Flying_Hours"⟩),
    ("241", ⟨"raw48", "Total_LBAs_Written"⟩),
    ("242", ⟨"raw48", "Total_LBAs_Read"⟩),
    ("250", ⟨"raw48", "Read_Error_Retry_Rate"⟩),
    ("254", ⟨"raw48", "Free_Fall_Sensor"⟩) ]

/-- The one entry of the YAML document `DbYaml`, as the decoder leaves it: family
`DEFAULT`, its presets the map at reference `0`. -/
def DbYamlDefault : DriveModel :=
  { Family := "DEFAULT", ModelRegex := "-", FirmwareRegex := "-",
    WarningMsg := "Default settings", Presets := some 0, CompiledRegexp := none }

/-- The entries of the YAML document `DbYaml`. -/
def DbYamlDrives : List DriveModel := [DbYamlDefault]

/-- What the YAML decoder leaves for the document `DbYaml`. -/
def DbYamlParsed : Unmarshalled :=
  { db := ⟨DbYamlDrives⟩, heap := fun r => if r = 0 then DbYamlPresets else [], err := none }

/-- The conversion kinds the specification knows. -/
def knownKinds : List String :=
  ["raw48", "raw16", "raw16(raw16)", "raw24(raw8)", "raw16(avg16)", "tempminmax"]

/-- The number a string of decimal digits without a leading zero denotes. -/
def idNumber (id : String) : Option Nat :=
  match id.toList with
  | [] => none
  | '0' :: _ => none
  | cs =>
    if cs.all Char.isDigit then some (cs.foldl (fun n c => 10 * n + (c.toNat - '0'.toNat)) 0)
    else none

/-- Whether a preset id is the decimal string of a number from 1 to 255. -/
def idInRange (id : String) : Bool :=
  match idNumber id with
  | some n => decide (1 ≤ n) && decide (n ≤ 255) && decide (toString n = id)
  | none => false

/-- `regexp.Compile` as far as the examples need it: the expression `(`, a group that
is not closed, is rejected; the expressions of the sample catalog compile. -/
def exCompile (expr : String) : Except Error Regexp :=
  if expr = "(" then .error "error parsing regexp: missing closing )" else .ok ⟨expr⟩

/-- A family entry as the YAML decoder leaves it, no pattern compiled yet. -/
def exZetaParsed : DriveModel :=
  { Family := "Zeta disks", ModelRegex := "ZETA", FirmwareRegex := "", WarningMsg := "",
    Presets := none, CompiledRegexp := none }

/-- A `DEFAULT` entry as the YAML decoder leaves it. -/
def exDefaultParsed : DriveModel :=
  { Family := "DEFAULT", ModelRegex := "-", FirmwareRegex := "-",
    WarningMsg := "Default settings", Presets := some 0, CompiledRegexp := none }

/-- A family entry whose `model_regex` is `(`, as the YAML decoder leaves it. -/
def exBrokenParsed : DriveModel :=
  { Family := "Broken", ModelRegex := "(", FirmwareRegex := "", WarningMsg := "",
    Presets := none, CompiledRegexp := none }

/-- A YAML decoder for three documents: `zeta.yaml` holds one family entry and no
`DEFAULT` entry, `broken.yaml` a `DEFAULT` entry and a family entry whose pattern is
`(`, and every other text is the built-in document. -/
def exUnmarshal (text : String) : Unmarshalled :=
  if text = "zeta.yaml" then { db := ⟨[exZetaParsed]⟩, heap := exHeap, err := none }
  else if text = "broken.yaml" then
    { db := ⟨[exDefaultParsed, exBrokenParsed]⟩, heap := exHeap, err := none }
  else DbYamlParsed

end Drivedb

/-! # Record layouts (package `smart`, `sat.go`) -/

namespace Smart

/-- The field types of `sat.go`, as `encoding/binary` lays them out: fixed-width
unsigned integers, arrays and structs, without padding. -/
inductive WireType where
  | uint8
  | uint16
  | uint32
  | array (n : Nat) (elem : WireType)
  | struct (fields : List (String × WireType))

mutual
/-- The number of bytes a value of the type occupies on the wire. -/
def WireType.size : WireType → Nat
  | .uint8 => 1
  | .uint16 => 2
  | .uint32 => 4
  | .array n elem => n * elem.size
  | .struct fields => sizeOfFields fields
/-- The number of bytes the fields occupy, laid out consecutively. -/
def sizeOfFields : List (String × WireType) → Nat
  | [] => 0
  | f :: fs => f.2.size + sizeOfFields fs
end

/-- The byte offset at which the field `name` starts in the consecutive layout. -/
def offsetOf (name : String) : List (String × WireType) → Option Nat
  | [] => none
  | f :: fs => if f.1 = name then some 0 else (offsetOf name fs).map (fun o => f.2.size + o)

/-- The width of the field `name`. -/
def widthOf (name : String) : List (String × WireType) → Option Nat
  | [] => none
  | f :: fs => if f.1 = name then some f.2.size else widthOf name fs

/-- The first and the last byte of the field `name` in the consecutive layout. -/
def byteRange (name : String) (fields : List (String × WireType)) : Option (Nat × Nat) :=
  match offsetOf name fields, widthOf name fields with
  | some o, some w => some (o, o + w - 1)
  | _, _ => none

/-- The first and the last 16-bit word of the field `name`. -/
def wordRange (name : String) (fields : List (String × WireType)) : Option (Nat × Nat) :=
  (byteRange name fields).map (fun r => (r.1 / 2, r.2 / 2))

/-- The declared fields of `type IdentifyDeviceData struct`, in declaration order
(`byte` is `uint8`; the last field is the blank field `_ [512 - 110]byte`). -/
def IdentifyDeviceData.wire : List (String × WireType) :=
  [ ("GeneralConfiguration", .uint16),
    ("NumCylinders", .uint16),
    ("ReservedWord2", .uint16),
    ("NumHeads", .uint16),
    ("Retired1", .array 2 .uint16),
    ("NumSectorsPerTrack", .uint16),
    ("VendorUnique", .array 3 .uint16),
    ("SerialNumber", .array 20 .uint8),
    ("Retired2", .array 2 .uint16),
    ("Obsolete1", .uint16),
    ("FirmwareRevision", .array 8 .uint8),
    ("ModelNumber", .array 40 .uint8),
    ("MaxBlockTransfer", .uint8),
    ("VendorUnique2", .uint8),
    ("ReservedWord48", .uint16),
    ("Capabilities", .uint32),
    ("ObsoleteWords51", .array 2 .uint16),
    ("_", .array (512 - 110) .uint8) ]

/-- The declared fields of `type smartAttr struct`. -/
def smartAttr.wire : List (String × WireType) :=
  [ ("Id", .uint8),
    ("Flags", .uint16),
    ("Value", .uint8),
    ("Worst", .uint8),
    ("VendorBytes", .array 6 .uint8),
    ("Reserved", .uint8) ]

/-- The declared fields of `type smartPage struct`. -/
def smartPage.wire : List (String × WireType) :=
  [ ("Version", .uint16),
    ("Attrs", .array 30 (.struct smartAttr.wire)) ]

/-- The byte offset of element `i` of the array field `name`, when `name` is an array
of more than `i` elements. -/
def elemOffset (name : String) (i : Nat) : List (String × WireType) → Option Nat
  | [] => none
  | f :: fs =>
    if f.1 = name then
      match f.2 with
      | .array n elem => if i < n then some (i * elem.size) else none
      | _ => none
    else (elemOffset name i fs).map (fun o => f.2.size + o)

/-! ## Attribute tables and the decoder -/

/-- A value of `type smartAttr struct`: one slot of the attribute table. -/
structure smartAttr where
  Id : Nat
  Flags : Nat
  Value : Nat
  Worst : Nat
  VendorBytes : List Nat
  Reserved : Nat
deriving DecidableEq, Repr

/-- A value of `type smartPage struct`; `Attrs` is the array `[30]smartAttr`. -/
structure smartPage where
  Version : Nat
  Attrs : List smartAttr
deriving DecidableEq, Repr

/-- Modelled from the spec: the record `DecodedAttribute` of the attribute decoder,
which is not among the sources: id, display name, decoded value, the flag that the
conversion kind was not recognised, and the raw vendor bytes. -/
structure DecodedAttribute where
  id : Nat
  name : String
  value : Nat
  fallback : Bool
  raw : List Nat
deriving DecidableEq, Repr

/-- Modelled from the spec: the decoding of one populated slot by the attribute
decoder of section 4.3, which is not among the sources.  The id is looked up as a
decimal string in the presets of the resolved rule-set; an id that is absent gets the
kind `raw48` and the name `Unknown_Attribute_<id>`; a kind the registry does not know
decodes as `raw48` and is flagged.  The byte rules of the kinds are the parameters
`registry` and `raw48`. -/
def decodeSlot (registry : String → Option (smartAttr → Nat)) (raw48 : smartAttr → Nat)
    (presets : Drivedb.PresetMap) (a : smartAttr) : DecodedAttribute :=
  let conv : Drivedb.AttrConv :=
    match Drivedb.mapGet presets (toString a.Id) with
    | some c => c
    | none => { Conv := "raw48", Name := "Unknown_Attribute_" ++ toString a.Id }
  match registry conv.Conv with
  | some f => { id := a.Id, name := conv.Name, value := f a, fallback := false,
                raw := a.VendorBytes }
  | none => { id := a.Id, name := conv.Name, value := raw48 a, fallback := true,
              raw := a.VendorBytes }

/-- Modelled from the spec: the attribute decoder `decode` of section 4.3, which is not
among the sources (only the types `smartAttr` and `smartPage` it reads are).  It
visits the slots in order, skips the slots whose id is 0 and decodes every other
slot. -/
def decode (registry : String → Option (smartAttr → Nat)) (raw48 : smartAttr → Nat)
    (rs : Drivedb.RuleSet) (page : smartPage) : List DecodedAttribute :=
  page.Attrs.filterMap (fun a =>
    if a.Id = 0 then none else some (decodeSlot registry raw48 (rs.Presets.getD []) a))

/-- A slot that is not in use. -/
def exEmptySlot : smartAttr :=
  { Id := 0, Flags := 0, Value := 0, Worst := 0, VendorBytes := [0, 0, 0, 0, 0, 0],
    Reserved := 0 }

/-- A slot in use, with the given id and vendor bytes. -/
def exSlot (id : Nat) (vendor : List Nat) : smartAttr :=
  { Id := id, Flags := 3, Value := 100, Worst := 100, VendorBytes := vendor, Reserved := 0 }

/-- A table with 5 of its 30 slots in use, not in the order of their ids. -/
def exPage : smartPage :=
  { Version := 16,
    Attrs := [exSlot 194 [35, 0, 20, 0, 45, 0]] ++ List.replicate 3 exEmptySlot ++
      [exSlot 9 [210, 4, 0, 0, 0, 0]] ++ List.replicate 7 exEmptySlot ++
      [exSlot 5 [0, 0, 0, 0, 0, 0], exSlot 233 [7, 0, 0, 0, 0, 0]] ++
      List.replicate 14 exEmptySlot ++ [exSlot 1 [1, 0, 0, 0, 0, 0]] ++ [exEmptySlot] }

/-- The plain value of the six vendor bytes, least significant byte first. -/
def exRaw48 (a : smartAttr) : Nat := a.VendorBytes.foldr (fun b n => b + 256 * n) 0

/-- A registry that knows the kind `raw48` only. -/
def exRegistry (kind : String) : Option (smartAttr → Nat) :=
  if kind = "raw48" then some exRaw48 else none

/-- A resolved rule-set: the `DEFAULT` entry of the sample catalog. -/
def exRuleSet : Drivedb.RuleSet := Drivedb.view Drivedb.exHeap Drivedb.exDefault

end Smart

namespace Drivedb

/-! ## Maps -/

theorem mapGet_mapSet (m : PresetMap) (id id' : String) (v : AttrConv) :
    mapGet (mapSet m id v) id' = if id = id' then some v else mapGet m id' := by
  induction m with
  | nil => simp [mapSet, mapGet]
  | cons e m ih =>
    obtain ⟨k, w⟩ := e
    by_cases hk : k = id
    · subst hk
      by_cases hi : k = id' <;> simp [mapSet, mapGet, hi]
    · by_cases hi : id = id'
      · subst hi
        simp [mapSet, mapGet, hk, ih]
      · by_cases hk' : k = id'
        · subst hk'
          simp [mapSet, mapGet, hk, hi]
        · simp [mapSet, mapGet, hk, hk', hi, ih]

theorem mapSet_of_mapGet (m : PresetMap) (id : String) (v : AttrConv)
    (hv : mapGet m id = some v) : mapSet m id v = m := by
  induction m with
  | nil => simp [mapGet] at hv
  | cons e m ih =>
    obtain ⟨k, w⟩ := e
    by_cases hk : k = id
    · subst hk
      simp [mapGet] at hv
      simp [mapSet, hv]
    · simp [mapGet, hk] at hv
      simp [mapSet, hk, ih hv]

theorem mapGet_eq_none_of_not_mem (m : PresetMap) (id : String)
    (hid : id ∉ m.map Prod.fst) : mapGet m id = none := by
  induction m with
  | nil => rfl
  | cons e m ih =>
    obtain ⟨k, w⟩ := e
    simp only [List.map_cons, List.mem_cons, not_or] at hid
    have hk : ¬ k = id := fun hk => hid.1 hk.symm
    simp [mapGet, hk, ih hid.2]

theorem mapGet_of_mem (m : PresetMap) (hm : NodupKeys m) (e : String × AttrConv)
    (he : e ∈ m) : mapGet m e.1 = some e.2 := by
  induction m with
  | nil => simp at he
  | cons a m ih =>
    obtain ⟨k, w⟩ := a
    have hnd : k ∉ m.map Prod.fst ∧ NodupKeys m := by
      simpa [NodupKeys] using hm
    rcases List.mem_cons.1 he with rfl | he'
    · simp [mapGet]
    · have hk : ¬ k = e.1 := by
        intro hk
        exact hnd.1 (hk ▸ List.mem_map_of_mem Prod.fst he')
      simp [mapGet, hk, ih hnd.2 he']

theorem mapGet_isSome_iff (m : PresetMap) (id : String) :
    (mapGet m id).isSome = true ↔ id ∈ m.map Prod.fst := by
  induction m with
  | nil => simp [mapGet]
  | cons e m ih =>
    obtain ⟨k, w⟩ := e
    by_cases hk : k = id
    · simp [mapGet, hk]
    · have hk' : ¬ id = k := fun h => hk h.symm
      simp [mapGet, hk, hk', ih]

/-! ## The merge loop -/

theorem mergeEntry_eq (m : PresetMap) (id : String) (p : AttrConv) :
    mergeEntry m (id, p) = mapSet m id (mergedValue (mapGet m id) p) := by
  cases hq : mapGet m id with
  | none => simp [mergeEntry, mergedValue, hq]
  | some q =>
    by_cases hn : p.Name = "" <;> simp [mergeEntry, mergedValue, hq, hn]

theorem mapGet_mergeEntry (m : PresetMap) (id id' : String) (p : AttrConv) :
    mapGet (mergeEntry m (id, p)) id' =
      if id = id' then some (mergedValue (mapGet m id) p) else mapGet m id' := by
  rw [mergeEntry_eq, mapGet_mapSet]

/-- What the merge loop leaves at every id: the merged value for the ids of the
matched entry, the old contents for all others. -/
theorem mapGet_foldl_mergeEntry (pairs : List (String × AttrConv)) (hnd : NodupKeys pairs)
    (m : PresetMap) (id : String) :
    mapGet (pairs.foldl mergeEntry m) id =
      match mapGet pairs id with
      | some p => some (mergedValue (mapGet m id) p)
      | none => mapGet m id := by
  induction pairs generalizing m with
  | nil => simp [mapGet]
  | cons e rest ih =>
    obtain ⟨k, p⟩ := e
    have hnd' : k ∉ rest.map Prod.fst ∧ NodupKeys rest := by
      simpa [NodupKeys] using hnd
    rw [List.foldl_cons, ih hnd'.2]
    by_cases hk : k = id
    · subst hk
      rw [mapGet_eq_none_of_not_mem rest k hnd'.1]
      simp [mapGet, mapGet_mergeEntry]
    · simp [mapGet, hk, mapGet_mergeEntry]

theorem foldl_mergeEntry_fixed (pairs : List (String × AttrConv)) (m : PresetMap)
    (hfix : ∀ e ∈ pairs, mergeEntry m e = m) : pairs.foldl mergeEntry m = m := by
  induction pairs with
  | nil => rfl
  | cons e rest ih =>
    rw [List.foldl_cons, hfix e (List.mem_cons_self _ _)]
    exact ih (fun x hx => hfix x (List.mem_cons_of_mem _ hx))

theorem mergedValue_idem (old : Option AttrConv) (p : AttrConv) :
    mergedValue (some (mergedValue old p)) p = mergedValue old p := by
  cases old with
  | none =>
    by_cases hn : p.Name = "" <;> simp [mergedValue, hn]
    rw [← hn]
  | some q =>
    by_cases hn : p.Name = "" <;> simp [mergedValue, hn]

/-- Running the merge loop again over the same pairs changes nothing. -/
theorem foldl_mergeEntry_idem (pairs : List (String × AttrConv)) (hnd : NodupKeys pairs)
    (m : PresetMap) :
    pairs.foldl mergeEntry (pairs.foldl mergeEntry m) = pairs.foldl mergeEntry m := by
  apply foldl_mergeEntry_fixed
  rintro ⟨id, p⟩ he
  have hget := mapGet_foldl_mergeEntry pairs hnd m id
  rw [mapGet_of_mem pairs hnd (id, p) he] at hget
  rw [mergeEntry_eq]
  apply mapSet_of_mapGet
  rw [hget]
  simp only [mergedValue_idem]

/-- Merging a map into itself changes nothing. -/
theorem foldl_mergeEntry_self (m : PresetMap) (hnd : NodupKeys m) :
    m.foldl mergeEntry m = m := by
  apply foldl_mergeEntry_fixed
  rintro ⟨id, p⟩ he
  have hget := mapGet_of_mem m hnd (id, p) he
  rw [mergeEntry_eq]
  apply mapSet_of_mapGet
  simp only at hget
  rw [hget]
  by_cases hn : p.Name = ""
  · simp only [mergedValue, hn, if_true]
    rw [← hn]
  · simp [mergedValue, hn]

theorem heapSet_self (h : Heap) (r : MapRef) : heapSet h r (h r) = h := by
  funext r'
  by_cases hr : r' = r <;> simp [heapSet, hr]

theorem heapSet_heapSet (h : Heap) (r : MapRef) (m m' : PresetMap) :
    heapSet (heapSet h r m) r m' = heapSet h r m' := by
  funext r'
  by_cases hr : r' = r <;> simp [heapSet, hr]

theorem mergePresets_some (pairs : List (String × AttrConv)) (r : MapRef) (h : Heap) :
    mergePresets pairs (some r) h = .ok (heapSet h r (pairs.foldl mergeEntry (h r))) := by
  induction pairs generalizing h with
  | nil => simp [mergePresets, heapSet_self]
  | cons e rest ih =>
    rw [mergePresets, ih, heapSet_heapSet]
    simp [heapSet]

theorem mergePresets_ok (pairs : List (String × AttrConv)) (target : Option MapRef) (h : Heap)
    (hsafe : target = none → pairs = []) :
    mergePresets pairs target h = .ok (mergedHeap pairs target h) := by
  cases target with
  | some r => exact mergePresets_some pairs r h
  | none =>
    rw [hsafe rfl]
    rfl

theorem mergePresets_nil_target (e : String × AttrConv) (rest : List (String × AttrConv))
    (h : Heap) : mergePresets (e :: rest) none h = .error .nilMapWrite := rfl

/-! ## The catalog loop -/

theorem hasPrefix_default : HasPrefix "DEFAULT" "$Id" = false := by decide

theorem lookupLoop_placeholder (Match : Regexp → Ident → Bool) (ident : Ident)
    (d : DriveModel) (ds : List DriveModel) (model : DriveModel) (h : Heap)
    (hd : isPlaceholder d = true) :
    lookupLoop Match ident (d :: ds) model h = lookupLoop Match ident ds model h := by
  unfold isPlaceholder at hd
  simp [lookupLoop, hd]

theorem lookupLoop_default (Match : Regexp → Ident → Bool) (ident : Ident)
    (d : DriveModel) (ds : List DriveModel) (model : DriveModel) (h : Heap)
    (hd : d.Family = "DEFAULT") :
    lookupLoop Match ident (d :: ds) model h = lookupLoop Match ident ds d h := by
  have hp : HasPrefix d.Family "$Id" = false := by rw [hd]; exact hasPrefix_default
  simp only [lookupLoop, hp]
  simp [hd]

theorem lookupLoop_rejects (Match : Regexp → Ident → Bool) (ident : Ident)
    (d : DriveModel) (ds : List DriveModel) (model : DriveModel) (h : Heap)
    (hd : rejectsEntry Match ident d = true) :
    lookupLoop Match ident (d :: ds) model h = lookupLoop Match ident ds model h := by
  by_cases hp : isPlaceholder d = true
  · exact lookupLoop_placeholder Match ident d ds model h hp
  · simp only [rejectsEntry, isFamilyEntry, patternRejects, hp, Bool.false_or, Bool.and_eq_true,
      Bool.not_eq_true', decide_eq_false_iff_not] at hd
    obtain ⟨⟨-, hdef⟩, hrej⟩ := hd
    simp only [isPlaceholder, Bool.not_eq_true] at hp
    cases hre : d.CompiledRegexp with
    | none => simp [hre] at hrej
    | some re =>
      simp only [hre, Bool.not_eq_true'] at hrej
      simp [lookupLoop, hp, hdef, hre, hrej]

theorem lookupLoop_matches (Match : Regexp → Ident → Bool) (ident : Ident)
    (d : DriveModel) (ds : List DriveModel) (model : DriveModel) (h : Heap)
    (hd : matchesEntry Match ident d = true) :
    lookupLoop Match ident (d :: ds) model h =
      match mergePresets (rangePresets d.Presets h) model.Presets h with
      | .error f => .error f
      | .ok h' => .ok (withHeader model d, h') := by
  simp only [matchesEntry, isFamilyEntry, isPlaceholder, patternMatches, Bool.and_eq_true,
    Bool.not_eq_true', decide_eq_false_iff_not] at hd
  obtain ⟨⟨hp, hdef⟩, hm⟩ := hd
  cases hre : d.CompiledRegexp with
  | none => simp [hre] at hm
  | some re =>
    simp only [hre] at hm
    simp [lookupLoop, hp, hdef, hre, hm, withHeader]

theorem lookupLoop_rejects_append (Match : Regexp → Ident → Bool) (ident : Ident)
    (mid rest : List DriveModel) (model : DriveModel) (h : Heap)
    (hmid : ∀ x ∈ mid, rejectsEntry Match ident x = true) :
    lookupLoop Match ident (mid ++ rest) model h = lookupLoop Match ident rest model h := by
  induction mid with
  | nil => rfl
  | cons d ds ih =>
    rw [List.cons_append, lookupLoop_rejects Match ident d _ model h
      (hmid d (List.mem_cons_self _ _))]
    exact ih (fun x hx => hmid x (List.mem_cons_of_mem _ hx))

theorem lookupLoop_passes_append (Match : Regexp → Ident → Bool) (ident : Ident)
    (pre : List DriveModel) (model : DriveModel) (h : Heap)
    (hpre : ∀ x ∈ pre, passesEntry Match ident x = true) :
    ∃ model', ∀ rest,
      lookupLoop Match ident (pre ++ rest) model h = lookupLoop Match ident rest model' h := by
  induction pre generalizing model with
  | nil => exact ⟨model, fun _ => rfl⟩
  | cons d ds ih =>
    have hd := hpre d (List.mem_cons_self _ _)
    have hds : ∀ x ∈ ds, passesEntry Match ident x = true :=
      fun x hx => hpre x (List.mem_cons_of_mem _ hx)
    simp only [passesEntry, Bool.or_eq_true, decide_eq_true_eq] at hd
    rcases hd with hrej | hdef
    · obtain ⟨model', hm⟩ := ih model hds
      exact ⟨model', fun rest => by
        rw [List.cons_append, lookupLoop_rejects Match ident d _ model h hrej, hm rest]⟩
    · obtain ⟨model', hm⟩ := ih d hds
      exact ⟨model', fun rest => by
        rw [List.cons_append, lookupLoop_default Match ident d _ model h hdef, hm rest]⟩

/-- The run of the loop on a catalog with a first match `E` after the `DEFAULT` entry
`D`: the header of `E`, the map of `D`, merged in place. -/
theorem lookupLoop_first_match (Match : Regexp → Ident → Bool) (ident : Ident)
    (drives pre : List DriveModel) (D : DriveModel) (mid : List DriveModel)
    (E : DriveModel) (post : List DriveModel) (model : DriveModel) (h : Heap)
    (hs : FirstMatchAfterDefault Match ident drives pre D mid E post)
    (hsafe : D.Presets = none → rangePresets E.Presets h = []) :
    lookupLoop Match ident drives model h =
      .ok (withHeader D E, mergedHeap (rangePresets E.Presets h) D.Presets h) := by
  obtain ⟨hdb, hpre, hD, hmid, hE⟩ := hs
  obtain ⟨model', hm⟩ := lookupLoop_passes_append Match ident pre model h hpre
  rw [hdb, hm, lookupLoop_default Match ident D _ model' h hD,
    lookupLoop_rejects_append Match ident mid _ D h hmid,
    lookupLoop_matches Match ident E post D h hE,
    mergePresets_ok (rangePresets E.Presets h) D.Presets h hsafe]

/-- The run of the loop on a catalog without a match: the last `DEFAULT` entry. -/
theorem lookupLoop_no_match (Match : Regexp → Ident → Bool) (ident : Ident)
    (pre : List DriveModel) (D : DriveModel) (post : List DriveModel)
    (model : DriveModel) (h : Heap)
    (hpre : ∀ x ∈ pre, passesEntry Match ident x = true)
    (hD : D.Family = "DEFAULT")
    (hpost : ∀ x ∈ post, rejectsEntry Match ident x = true) :
    lookupLoop Match ident (pre ++ D :: post) model h = .ok (D, h) := by
  obtain ⟨model', hm⟩ := lookupLoop_passes_append Match ident pre model h hpre
  rw [hm, lookupLoop_default Match ident D _ model' h hD]
  have := lookupLoop_rejects_append Match ident post [] D h hpost
  rw [List.append_nil] at this
  rw [this]
  rfl

/-- The rule-set a caller receives on a first match `E` after the `DEFAULT` entry `D`
whose presets are the map at `rD`. -/
theorem resolve_first_match (Match : Regexp → Ident → Bool) (ident : Ident)
    (db : DriveDb) (pre : List DriveModel) (D : DriveModel) (mid : List DriveModel)
    (E : DriveModel) (post : List DriveModel) (h : Heap) (rD : MapRef)
    (hs : FirstMatchAfterDefault Match ident db.Drives pre D mid E post)
    (hDp : D.Presets = some rD) :
    resolve Match db h ident =
      .ok { Family := E.Family, ModelRegex := E.ModelRegex, FirmwareRegex := E.FirmwareRegex,
            WarningMsg := E.WarningMsg,
            Presets := some ((rangePresets E.Presets h).foldl mergeEntry (h rD)),
            CompiledRegexp := E.CompiledRegexp } := by
  have hrun := lookupLoop_first_match Match ident db.Drives pre D mid E post zeroModel h hs
    (by simp [hDp])
  simp [resolve, LookupDrive, hrun, view, withHeader, mergedHeap, hDp, heapSet]

/-! ## First match wins -/

/-- Claim C1, as the code has it.  In a catalog whose first family entry matching the blob
is `E`, with the `DEFAULT` entry `D` before it, where `D` has a presets map or `E` has
no presets, `LookupDrive` returns the `Family`, `ModelRegex`, `FirmwareRegex`,
`WarningMsg` and `CompiledRegexp` of `E`; and the entries after `E` do not influence
the result: any other tail of the catalog gives the same result. -/
theorem lookupDrive_first_match_wins (Match : Regexp → Ident → Bool) (ident : Ident)
    (db : DriveDb) (pre : List DriveModel) (D : DriveModel) (mid : List DriveModel)
    (E : DriveModel) (post : List DriveModel) (h : Heap)
    (hs : FirstMatchAfterDefault Match ident db.Drives pre D mid E post)
    (hsafe : D.Presets = none → rangePresets E.Presets h = []) :
    (∃ m h', LookupDrive Match db h ident = .ok (m, h') ∧
      m.Family = E.Family ∧ m.ModelRegex = E.ModelRegex ∧
      m.FirmwareRegex = E.FirmwareRegex ∧ m.WarningMsg = E.WarningMsg ∧
      m.CompiledRegexp = E.CompiledRegexp) ∧
    ∀ post', LookupDrive Match ⟨pre ++ D :: (mid ++ E :: post')⟩ h ident =
      LookupDrive Match db h ident := by
  have hrun := lookupLoop_first_match Match ident db.Drives pre D mid E post zeroModel h hs hsafe
  refine ⟨⟨_, _, hrun, rfl, rfl, rfl, rfl, rfl⟩, fun post' => ?_⟩
  have hs' : FirstMatchAfterDefault Match ident (pre ++ D :: (mid ++ E :: post')) pre D mid E
      post' := ⟨rfl, hs.2.1, hs.2.2.1, hs.2.2.2.1, hs.2.2.2.2⟩
  unfold LookupDrive
  rw [hrun]
  exact lookupLoop_first_match Match ident _ pre D mid E post' zeroModel h hs' hsafe

/-- Witness of C1: in the sample catalog an Acme device matches `exAcme` first, although
the later `exAcmePro` matches too. -/
theorem lookupDrive_first_match_wins_witness :
    FirstMatchAfterDefault literalMatch exIdentAcme exDb.Drives [exPlaceholder] exDefault
      [exZeta] exAcme [exAcmePro] ∧
    matchesEntry literalMatch exIdentAcme exAcmePro = true ∧
    ((∃ m h', LookupDrive literalMatch exDb exHeap exIdentAcme = .ok (m, h') ∧
      m.Family = exAcme.Family ∧ m.ModelRegex = exAcme.ModelRegex ∧
      m.FirmwareRegex = exAcme.FirmwareRegex ∧ m.WarningMsg = exAcme.WarningMsg ∧
      m.CompiledRegexp = exAcme.CompiledRegexp) ∧
    ∀ post', LookupDrive literalMatch
        ⟨[exPlaceholder] ++ exDefault :: ([exZeta] ++ exAcme :: post')⟩ exHeap exIdentAcme =
      LookupDrive literalMatch exDb exHeap exIdentAcme) :=
  ⟨by decide, by decide,
    lookupDrive_first_match_wins literalMatch exIdentAcme exDb [exPlaceholder] exDefault
      [exZeta] exAcme [exAcmePro] exHeap (by decide) (by decide)⟩

/-- Claim C1 as stated fails: the `DEFAULT` entry precedes the only family entry, that entry
matches the blob, and the call panics on the nil presets map of `DEFAULT` instead of
returning. -/
theorem lookupDrive_first_match_nil_default :
    matchesEntry literalMatch exIdentAcme exAcme = true ∧
    resolve literalMatch ⟨[exDefaultNil, exAcme]⟩ exHeap exIdentAcme
      = .error .nilMapWrite := by
  decide

/-! ## No match -/

/-- Claim C2, as the code has it.  In a catalog whose family entries all have a
compiled matcher, when the matcher of every family entry rejects the blob,
`LookupDrive` returns the `DEFAULT` entry of the catalog as it stands: every field, the
same presets map, and the heap untouched. -/
theorem lookupDrive_no_match (Match : Regexp → Ident → Bool) (ident : Ident)
    (db : DriveDb) (pre : List DriveModel) (D : DriveModel) (post : List DriveModel)
    (h : Heap)
    (hdb : db.Drives = pre ++ D :: post)
    (hpre : ∀ x ∈ pre, passesEntry Match ident x = true)
    (hD : D.Family = "DEFAULT")
    (hpost : ∀ x ∈ post, rejectsEntry Match ident x = true) :
    LookupDrive Match db h ident = .ok (D, h) ∧
    resolve Match db h ident = .ok (view h D) := by
  have hrun : LookupDrive Match db h ident = .ok (D, h) := by
    unfold LookupDrive
    rw [hdb]
    exact lookupLoop_no_match Match ident pre D post zeroModel h hpre hD hpost
  exact ⟨hrun, by simp [resolve, hrun]⟩

/-- Witness of C2: a blob that no entry of the sample catalog matches. -/
theorem lookupDrive_no_match_witness :
    (∀ x ∈ exDb.Drives, x.Family ≠ "DEFAULT" →
      patternMatches literalMatch exIdentOther x = false) ∧
    LookupDrive literalMatch exDb exHeap exIdentOther = .ok (exDefault, exHeap) ∧
    resolve literalMatch exDb exHeap exIdentOther = .ok (view exHeap exDefault) :=
  ⟨by decide,
    lookupDrive_no_match literalMatch exIdentOther exDb [exPlaceholder] exDefault
      [exZeta, exAcme, exAcmePro] exHeap rfl (by decide) rfl (by decide)⟩

/-- Claim C2 as stated fails: in the catalog `[DEFAULT, Broken]`, as `OpenDriveDb`
loads it when the pattern `(` of `Broken` does not compile, the blob matches no entry
other than `DEFAULT`, and the call panics on the nil matcher instead of returning the
`DEFAULT` entry. -/
theorem lookupDrive_no_match_nil_matcher :
    compileEntry exCompile exBrokenParsed =
      { Family := "Broken", ModelRegex := "(", FirmwareRegex := "", WarningMsg := "",
        Presets := none, CompiledRegexp := none } ∧
    (∀ x ∈ [exDefault, compileEntry exCompile exBrokenParsed], x.Family ≠ "DEFAULT" →
      patternMatches literalMatch exIdentOther x = false) ∧
    resolve literalMatch ⟨[exDefault, compileEntry exCompile exBrokenParsed]⟩ exHeap
      exIdentOther = .error .nilRegexp := by
  decide

/-! ## The merge of presets -/

/-- Claim C3, as the code has it.  When `LookupDrive` matches `E` and the `DEFAULT` entry `D`
precedes `E`: for every id that the presets of `D` hold (as `q`) and the presets of `E`
hold with an empty `Name` (as `p`), the returned `Presets[id]` has the `Conv` of `E`
and the `Name` of `DEFAULT`.  (Go maps hold each key once.) -/
theorem lookupDrive_override_without_name (Match : Regexp → Ident → Bool) (ident : Ident)
    (db : DriveDb) (pre : List DriveModel) (D : DriveModel) (mid : List DriveModel)
    (E : DriveModel) (post : List DriveModel) (h : Heap) (rD : MapRef)
    (id : String) (p q : AttrConv)
    (hs : FirstMatchAfterDefault Match ident db.Drives pre D mid E post)
    (hDp : D.Presets = some rD)
    (hnd : NodupKeys (rangePresets E.Presets h))
    (hq : mapGet (h rD) id = some q)
    (hp : mapGet (rangePresets E.Presets h) id = some p)
    (hname : p.Name = "") :
    ∃ rs pm, resolve Match db h ident = .ok rs ∧ rs.Presets = some pm ∧
      mapGet pm id = some { Conv := p.Conv, Name := q.Name } := by
  refine ⟨_, _, resolve_first_match Match ident db pre D mid E post h rD hs hDp, rfl, ?_⟩
  rw [mapGet_foldl_mergeEntry _ hnd, hp, hq]
  simp [mergedValue, hname]

/-- Witness of C3: id 194 of the sample catalog, `raw48`/`Temperature_Celsius` in
`DEFAULT`, overridden by `tempminmax` without a name. -/
theorem lookupDrive_override_without_name_witness :
    mapGet (exHeap 0) "194" = some ⟨"raw48", "Temperature_Celsius"⟩ ∧
    mapGet (rangePresets exAcme.Presets exHeap) "194" = some ⟨"tempminmax", ""⟩ ∧
    ∃ rs pm, resolve literalMatch exDb exHeap exIdentAcme = .ok rs ∧ rs.Presets = some pm ∧
      mapGet pm "194" = some { Conv := "tempminmax", Name := "Temperature_Celsius" } :=
  ⟨by decide, by decide,
    lookupDrive_override_without_name literalMatch exIdentAcme exDb [exPlaceholder] exDefault
      [exZeta] exAcme [exAcmePro] exHeap 0 "194" ⟨"tempminmax", ""⟩
      ⟨"raw48", "Temperature_Celsius"⟩ (by decide) rfl (by decide) (by decide) (by decide) rfl⟩

/-- Claim C3 as stated fails when the matched entry precedes `DEFAULT`: id 194 is in the
presets of `DEFAULT` and, with an empty name, in the presets of the matched entry, and
the call panics instead of returning. -/
theorem lookupDrive_override_before_default :
    matchesEntry literalMatch exIdentAcme exAcme = true ∧
    mapGet (rangePresets exDefault.Presets exHeap) "194"
      = some ⟨"raw48", "Temperature_Celsius"⟩ ∧
    mapGet (rangePresets exAcme.Presets exHeap) "194" = some ⟨"tempminmax", ""⟩ ∧
    resolve literalMatch ⟨[exAcme, exDefault]⟩ exHeap exIdentAcme = .error .nilMapWrite := by
  decide

/-- Claim C4, as the code has it.  When `LookupDrive` matches `E` and the `DEFAULT` entry `D`,
which has a presets map, precedes `E`: for every id the presets of `E` hold (as `p`)
such that the presets of `D` do not hold the id or `p.Name` is not empty, the returned
`Presets[id]` is `p`.  (Go maps hold each key once.) -/
theorem lookupDrive_full_replacement (Match : Regexp → Ident → Bool) (ident : Ident)
    (db : DriveDb) (pre : List DriveModel) (D : DriveModel) (mid : List DriveModel)
    (E : DriveModel) (post : List DriveModel) (h : Heap) (rD : MapRef)
    (id : String) (p : AttrConv)
    (hs : FirstMatchAfterDefault Match ident db.Drives pre D mid E post)
    (hDp : D.Presets = some rD)
    (hnd : NodupKeys (rangePresets E.Presets h))
    (hp : mapGet (rangePresets E.Presets h) id = some p)
    (hcase : mapGet (h rD) id = none ∨ p.Name ≠ "") :
    ∃ rs pm, resolve Match db h ident = .ok rs ∧ rs.Presets = some pm ∧
      mapGet pm id = some p := by
  refine ⟨_, _, resolve_first_match Match ident db pre D mid E post h rD hs hDp, rfl, ?_⟩
  rw [mapGet_foldl_mergeEntry _ hnd, hp]
  rcases hcase with hnone | hname
  · simp [mergedValue, hnone]
  · cases hq : mapGet (h rD) id <;> simp [mergedValue, hname]

/-- Witness of C4: id 233 of the sample catalog is absent from `DEFAULT`. -/
theorem lookupDrive_full_replacement_witness :
    mapGet (exHeap 0) "233" = none ∧
    ∃ rs pm, resolve literalMatch exDb exHeap exIdentAcme = .ok rs ∧ rs.Presets = some pm ∧
      mapGet pm "233" = some ⟨"raw48", "Media_Wearout_Indicator"⟩ :=
  ⟨by decide,
    lookupDrive_full_replacement literalMatch exIdentAcme exDb [exPlaceholder] exDefault
      [exZeta] exAcme [exAcmePro] exHeap 0 "233" ⟨"raw48", "Media_Wearout_Indicator"⟩
      (by decide) rfl (by decide) (by decide) (Or.inl (by decide))⟩

/-- Claim C4 as stated fails: id 233 is in the presets of the matched entry, with a name, and
absent from the presets of `DEFAULT`; the call panics instead of returning when the
matched entry precedes `DEFAULT`, and when `DEFAULT` has no presets map. -/
theorem lookupDrive_replacement_without_default_map :
    mapGet (rangePresets exAcme.Presets exHeap) "233"
      = some ⟨"raw48", "Media_Wearout_Indicator"⟩ ∧
    mapGet (rangePresets exDefault.Presets exHeap) "233" = none ∧
    resolve literalMatch ⟨[exAcme, exDefault]⟩ exHeap exIdentAcme = .error .nilMapWrite ∧
    mapGet (rangePresets exDefaultNil.Presets exHeap) "233" = none ∧
    resolve literalMatch ⟨[exDefaultNil, exAcme]⟩ exHeap exIdentAcme
      = .error .nilMapWrite := by
  decide

/-- Claim C5, as the code has it.  When `LookupDrive` matches `E` and the `DEFAULT` entry `D`,
which has a presets map, precedes `E`: every id absent from the presets of `E` maps in
the result to what the presets of `D` hold for it, and the ids of the returned presets
are exactly the ids of `D` together with the ids of `E`.  (Go maps hold each key
once.) -/
theorem lookupDrive_default_ids_survive (Match : Regexp → Ident → Bool) (ident : Ident)
    (db : DriveDb) (pre : List DriveModel) (D : DriveModel) (mid : List DriveModel)
    (E : DriveModel) (post : List DriveModel) (h : Heap) (rD : MapRef)
    (hs : FirstMatchAfterDefault Match ident db.Drives pre D mid E post)
    (hDp : D.Presets = some rD)
    (hnd : NodupKeys (rangePresets E.Presets h)) :
    ∃ rs pm, resolve Match db h ident = .ok rs ∧ rs.Presets = some pm ∧
      (∀ id, mapGet (rangePresets E.Presets h) id = none →
        mapGet pm id = mapGet (h rD) id) ∧
      (∀ id, id ∈ pm.map Prod.fst ↔
        id ∈ (h rD).map Prod.fst ∨ id ∈ (rangePresets E.Presets h).map Prod.fst) := by
  refine ⟨_, _, resolve_first_match Match ident db pre D mid E post h rD hs hDp, rfl, ?_, ?_⟩
  · intro id hid
    rw [mapGet_foldl_mergeEntry _ hnd, hid]
  · intro id
    rw [← mapGet_isSome_iff, ← mapGet_isSome_iff, ← mapGet_isSome_iff,
      mapGet_foldl_mergeEntry _ hnd]
    cases hp : mapGet (rangePresets E.Presets h) id <;> simp

/-- Witness of C5: the sample catalog; id 9 is in `DEFAULT` only and keeps its entry. -/
theorem lookupDrive_default_ids_survive_witness :
    mapGet (exHeap 0) "9" = some ⟨"raw24(raw8)", "Power_On_Hours"⟩ ∧
    mapGet (rangePresets exAcme.Presets exHeap) "9" = none ∧
    ∃ rs pm, resolve literalMatch exDb exHeap exIdentAcme = .ok rs ∧ rs.Presets = some pm ∧
      (∀ id, mapGet (rangePresets exAcme.Presets exHeap) id = none →
        mapGet pm id = mapGet (exHeap 0) id) ∧
      (∀ id, id ∈ pm.map Prod.fst ↔
        id ∈ (exHeap 0).map Prod.fst ∨
          id ∈ (rangePresets exAcme.Presets exHeap).map Prod.fst) :=
  ⟨by decide, by decide,
    lookupDrive_default_ids_survive literalMatch exIdentAcme exDb [exPlaceholder] exDefault
      [exZeta] exAcme [exAcmePro] exHeap 0 (by decide) rfl (by decide)⟩

/-- Claim C5 as stated fails.  When the matched entry precedes `DEFAULT` the call
returns the nil presets map, although id 194 is in the presets of `DEFAULT` and not in
those of the matched entry; and when `DEFAULT` has no presets map and the matched entry
has presets, the call panics instead of returning their union. -/
theorem lookupDrive_default_ids_lost :
    matchesEntry literalMatch (bytesOf "ZETA 9") exZeta = true ∧
    mapGet (rangePresets exDefault.Presets exHeap) "194"
      = some ⟨"raw48", "Temperature_Celsius"⟩ ∧
    mapGet (rangePresets exZeta.Presets exHeap) "194" = none ∧
    resolve literalMatch ⟨[exZeta, exDefault]⟩ exHeap (bytesOf "ZETA 9")
      = .ok { Family := "Zeta disks", ModelRegex := "ZETA", FirmwareRegex := "",
              WarningMsg := "", Presets := none, CompiledRegexp := some ⟨"ZETA"⟩ } ∧
    resolve literalMatch ⟨[exDefaultNil, exAcme]⟩ exHeap exIdentAcme
      = .error .nilMapWrite := by
  decide

/-! ## The catalog across calls -/

/-- Claim C6 fails on the code: a call that matches `exAcme` leaves the presets of the
`DEFAULT` entry of the catalog changed (id 194 converted by `tempminmax`, id 233
added), because `model = d` copies the map reference and the merge writes through
it. -/
theorem lookupDrive_mutates_default :
    catalogView ⟨[exDefault, exAcme]⟩ exHeap =
      [{ Family := "DEFAULT", ModelRegex := "-", FirmwareRegex := "-",
         WarningMsg := "Default settings",
         Presets := some [("9", ⟨"raw24(raw8)", "Power_On_Hours"⟩),
                          ("194", ⟨"raw48", "Temperature_Celsius"⟩)],
         CompiledRegexp := some ⟨"-"⟩ },
       { Family := "Acme SSDs", ModelRegex := "ACME", FirmwareRegex := "", WarningMsg := "",
         Presets := some [("194", ⟨"tempminmax", ""⟩),
                          ("233", ⟨"raw48", "Media_Wearout_Indicator"⟩)],
         CompiledRegexp := some ⟨"ACME"⟩ }] ∧
    catalogAfterLookup literalMatch ⟨[exDefault, exAcme]⟩ exHeap exIdentAcme =
      .ok [{ Family := "DEFAULT", ModelRegex := "-", FirmwareRegex := "-",
             WarningMsg := "Default settings",
             Presets := some [("9", ⟨"raw24(raw8)", "Power_On_Hours"⟩),
                              ("194", ⟨"tempminmax", "Temperature_Celsius"⟩),
                              ("233", ⟨"raw48", "Media_Wearout_Indicator"⟩)],
             CompiledRegexp := some ⟨"-"⟩ },
           { Family := "Acme SSDs", ModelRegex := "ACME", FirmwareRegex := "",
             WarningMsg := "",
             Presets := some [("194", ⟨"tempminmax", ""⟩),
                              ("233", ⟨"raw48", "Media_Wearout_Indicator"⟩)],
             CompiledRegexp := some ⟨"ACME"⟩ }] := by
  decide

/-- Claim C7 fails on the code: a blob that matches no family gets the presets of `DEFAULT`
on the fresh catalog, and the presets with the overrides of `exAcme` after a call for
an Acme device. -/
theorem lookupDrive_calls_interfere :
    resolve literalMatch ⟨[exDefault, exAcme]⟩ exHeap exIdentOther =
      .ok { Family := "DEFAULT", ModelRegex := "-", FirmwareRegex := "-",
            WarningMsg := "Default settings",
            Presets := some [("9", ⟨"raw24(raw8)", "Power_On_Hours"⟩),
                             ("194", ⟨"raw48", "Temperature_Celsius"⟩)],
            CompiledRegexp := some ⟨"-"⟩ } ∧
    resolveAfter literalMatch ⟨[exDefault, exAcme]⟩ exHeap exIdentAcme exIdentOther =
      .ok { Family := "DEFAULT", ModelRegex := "-", FirmwareRegex := "-",
            WarningMsg := "Default settings",
            Presets := some [("9", ⟨"raw24(raw8)", "Power_On_Hours"⟩),
                             ("194", ⟨"tempminmax", "Temperature_Celsius"⟩),
                             ("233", ⟨"raw48", "Media_Wearout_Indicator"⟩)],
            CompiledRegexp := some ⟨"-"⟩ } := by
  decide

theorem heapSet_same (h : Heap) (r : MapRef) (m : PresetMap) : heapSet h r m r = m := by
  simp [heapSet]

theorem heapSet_other (h : Heap) (r r' : MapRef) (m : PresetMap) (hr : r' ≠ r) :
    heapSet h r m r' = h r' := by
  simp [heapSet, hr]

/-- A merge that has run leaves a heap on which the same merge changes nothing. -/
theorem mergedHeap_twice (h : Heap) (hwf : HeapWF h) (presets : Option MapRef) (r : MapRef) :
    heapSet (mergedHeap (rangePresets presets h) (some r) h) r
        ((rangePresets presets (mergedHeap (rangePresets presets h) (some r) h)).foldl
          mergeEntry (mergedHeap (rangePresets presets h) (some r) h r)) =
      mergedHeap (rangePresets presets h) (some r) h := by
  cases presets with
  | none => simp [rangePresets, mergedHeap, heapSet_self]
  | some rE =>
    by_cases hr : rE = r
    · subst hr
      simp only [rangePresets, mergedHeap, foldl_mergeEntry_self (h rE) (hwf rE), heapSet_self]
    · simp only [rangePresets, mergedHeap, heapSet_same, heapSet_other h r rE _ hr,
        foldl_mergeEntry_idem (h rE) (hwf rE), heapSet_heapSet]

theorem lookupLoop_twice (Match : Regexp → Ident → Bool) (ident : Ident)
    (ds : List DriveModel) (model : DriveModel) (h : Heap) (hwf : HeapWF h)
    (m : DriveModel) (h1 : Heap)
    (hfirst : lookupLoop Match ident ds model h = .ok (m, h1)) :
    lookupLoop Match ident ds model h1 = .ok (m, h1) := by
  induction ds generalizing model with
  | nil =>
    simp only [lookupLoop, Except.ok.injEq, Prod.mk.injEq] at hfirst
    rw [lookupLoop, hfirst.1]
  | cons d ds ih =>
    by_cases hp : isPlaceholder d = true
    · rw [lookupLoop_placeholder Match ident d ds model _ hp] at hfirst ⊢
      exact ih model hfirst
    by_cases hdef : d.Family = "DEFAULT"
    · rw [lookupLoop_default Match ident d ds model _ hdef] at hfirst ⊢
      exact ih d hfirst
    have hfam : isFamilyEntry d = true := by simp [isFamilyEntry, hp, hdef]
    cases hre : d.CompiledRegexp with
    | none =>
      simp only [isPlaceholder, Bool.not_eq_true] at hp
      simp [lookupLoop, hp, hdef, hre] at hfirst
    | some re =>
      by_cases hm : Match re ident = true
      · have hmatch : matchesEntry Match ident d = true := by
          simp [matchesEntry, hfam, patternMatches, hre, hm]
        rw [lookupLoop_matches Match ident d ds model _ hmatch] at hfirst ⊢
        cases hP : model.Presets with
        | none =>
          rw [hP] at hfirst
          cases hpairs : rangePresets d.Presets h with
          | nil =>
            rw [hpairs] at hfirst
            simp only [mergePresets, Except.ok.injEq, Prod.mk.injEq] at hfirst
            rw [← hfirst.2, hpairs, ← hfirst.1]
            rfl
          | cons e rest =>
            rw [hpairs] at hfirst
            simp [mergePresets] at hfirst
        | some r =>
          rw [hP, mergePresets_some] at hfirst
          simp only [Except.ok.injEq, Prod.mk.injEq] at hfirst
          have hh : h1 = mergedHeap (rangePresets d.Presets h) (some r) h := hfirst.2.symm
          rw [mergePresets_some, ← hfirst.1, hh, mergedHeap_twice h hwf d.Presets r]
      · have hrej : rejectsEntry Match ident d = true := by
          simp [rejectsEntry, hfam, patternRejects, hre, hm]
        rw [lookupLoop_rejects Match ident d ds model _ hrej] at hfirst ⊢
        exact ih model hfirst

/-- Claim C8.  Calling `LookupDrive` twice in succession with the same catalog and
blob gives the outcome of calling it once: the rule-set of the second call equals the
rule-set of the first, and a first call that returns `m` and leaves heap `h1` is
followed by a second call that returns `m` and leaves `h1` as it is.  (Go maps hold
each key once: `HeapWF`.) -/
theorem lookupDrive_twice (Match : Regexp → Ident → Bool) (ident : Ident)
    (db : DriveDb) (h : Heap) (hwf : HeapWF h) :
    resolveAfter Match db h ident ident = resolve Match db h ident ∧
    ∀ m h1, LookupDrive Match db h ident = .ok (m, h1) →
      LookupDrive Match db h1 ident = .ok (m, h1) := by
  have hsecond : ∀ m h1, LookupDrive Match db h ident = .ok (m, h1) →
      LookupDrive Match db h1 ident = .ok (m, h1) :=
    fun m h1 hfirst => lookupLoop_twice Match ident db.Drives zeroModel h hwf m h1 hfirst
  refine ⟨?_, hsecond⟩
  cases hfirst : LookupDrive Match db h ident with
  | error f => simp [resolveAfter, resolve, hfirst]
  | ok r =>
    obtain ⟨m, h1⟩ := r
    simp [resolveAfter, resolve, hfirst, hsecond m h1 hfirst]

theorem exHeap_wf : HeapWF exHeap := by
  intro r
  unfold exHeap
  split_ifs <;> decide

/-- Witness of C8: the Acme lookup on the sample catalog, which merges overrides into
the presets of `DEFAULT`, repeated. -/
theorem lookupDrive_twice_witness :
    HeapWF exHeap ∧
    resolve literalMatch exDb exHeap exIdentAcme =
      .ok { Family := "Acme SSDs", ModelRegex := "ACME", FirmwareRegex := "",
            WarningMsg := "",
            Presets := some [("9", ⟨"raw24(raw8)", "Power_On_Hours"⟩),
                             ("194", ⟨"tempminmax", "Temperature_Celsius"⟩),
                             ("233", ⟨"raw48", "Media_Wearout_Indicator"⟩)],
            CompiledRegexp := some ⟨"ACME"⟩ } ∧
    resolveAfter literalMatch exDb exHeap exIdentAcme exIdentAcme =
      resolve literalMatch exDb exHeap exIdentAcme :=
  ⟨exHeap_wf, by decide,
    (lookupDrive_twice literalMatch exIdentAcme exDb exHeap exHeap_wf).1⟩

/-! ## Placeholder entries -/

theorem lookupLoop_filter_placeholders (Match : Regexp → Ident → Bool) (ident : Ident)
    (ds : List DriveModel) (model : DriveModel) (h : Heap) :
    lookupLoop Match ident (ds.filter (fun d => !isPlaceholder d)) model h =
      lookupLoop Match ident ds model h := by
  induction ds generalizing model with
  | nil => rfl
  | cons d ds ih =>
    by_cases hp : isPlaceholder d = true
    · rw [lookupLoop_placeholder Match ident d ds model h hp]
      simp [List.filter, hp, ih]
    · simp only [Bool.not_eq_true] at hp
      have hkeep : (d :: ds).filter (fun d => !isPlaceholder d) =
          d :: ds.filter (fun d => !isPlaceholder d) := by
        simp [List.filter, hp]
      have hp' : HasPrefix d.Family "$Id" = false := hp
      rw [hkeep]
      simp only [lookupLoop, hp', ih]

theorem lookupLoop_family_not_placeholder (Match : Regexp → Ident → Bool) (ident : Ident)
    (ds : List DriveModel) (model : DriveModel) (h : Heap) (m : DriveModel) (h' : Heap)
    (hmodel : isPlaceholder model = false)
    (hrun : lookupLoop Match ident ds model h = .ok (m, h')) :
    isPlaceholder m = false := by
  induction ds generalizing model with
  | nil =>
    simp only [lookupLoop, Except.ok.injEq, Prod.mk.injEq] at hrun
    rw [← hrun.1]
    exact hmodel
  | cons d ds ih =>
    by_cases hp : isPlaceholder d = true
    · rw [lookupLoop_placeholder Match ident d ds model h hp] at hrun
      exact ih model hmodel hrun
    simp only [Bool.not_eq_true] at hp
    by_cases hdef : d.Family = "DEFAULT"
    · rw [lookupLoop_default Match ident d ds model h hdef] at hrun
      exact ih d hp hrun
    have hfam : isFamilyEntry d = true := by simp [isFamilyEntry, hp, hdef]
    cases hre : d.CompiledRegexp with
    | none =>
      have hp' : HasPrefix d.Family "$Id" = false := hp
      simp [lookupLoop, hp', hdef, hre] at hrun
    | some re =>
      by_cases hm : Match re ident = true
      · have hmatch : matchesEntry Match ident d = true := by
          simp [matchesEntry, hfam, patternMatches, hre, hm]
        rw [lookupLoop_matches Match ident d ds model h hmatch] at hrun
        cases hmerge : mergePresets (rangePresets d.Presets h) model.Presets h with
        | error f => simp [hmerge] at hrun
        | ok h2 =>
          simp only [hmerge, Except.ok.injEq, Prod.mk.injEq] at hrun
          rw [← hrun.1]
          exact hp
      · have hrej : rejectsEntry Match ident d = true := by
          simp [rejectsEntry, hfam, patternRejects, hre, hm]
        rw [lookupLoop_rejects Match ident d ds model h hrej] at hrun
        exact ih model hmodel hrun

/-- Claim C9.  `LookupDrive` gives the same result (model, heap or panic) on the catalog and
on the catalog with every placeholder entry removed, and the family it returns never
begins with `$Id`. -/
theorem lookupDrive_placeholders_inert (Match : Regexp → Ident → Bool) (ident : Ident)
    (db : DriveDb) (h : Heap) :
    LookupDrive Match (withoutPlaceholders db) h ident = LookupDrive Match db h ident ∧
    resolve Match (withoutPlaceholders db) h ident = resolve Match db h ident ∧
    ∀ m h', LookupDrive Match db h ident = .ok (m, h') → HasPrefix m.Family "$Id" = false := by
  have heq : LookupDrive Match (withoutPlaceholders db) h ident = LookupDrive Match db h ident :=
    lookupLoop_filter_placeholders Match ident db.Drives zeroModel h
  refine ⟨heq, ?_, fun m h' hrun => ?_⟩
  · simp only [resolve, heq]
  · exact lookupLoop_family_not_placeholder Match ident db.Drives zeroModel h m h'
      (by decide) hrun

/-- Witness of C9: the placeholder of the sample catalog has a pattern that matches the
blob, and the call returns the `DEFAULT` family. -/
theorem lookupDrive_placeholders_inert_witness :
    patternMatches literalMatch (bytesOf "WDC WD10-EZEX") exPlaceholder = true ∧
    resolve literalMatch (withoutPlaceholders exDb) exHeap (bytesOf "WDC WD10-EZEX") =
      resolve literalMatch exDb exHeap (bytesOf "WDC WD10-EZEX") ∧
    HasPrefix exDefault.Family "$Id" = false :=
  ⟨by decide,
    (lookupDrive_placeholders_inert literalMatch (bytesOf "WDC WD10-EZEX") exDb exHeap).2.1,
    (lookupDrive_placeholders_inert literalMatch (bytesOf "WDC WD10-EZEX") exDb exHeap).2.2
      exDefault exHeap
      (lookupLoop_no_match literalMatch (bytesOf "WDC WD10-EZEX") [exPlaceholder] exDefault
        [exZeta, exAcme, exAcmePro] zeroModel exHeap (by decide) rfl (by decide))⟩

/-! ## A matching family entry -/

theorem lookupLoop_returns_match (Match : Regexp → Ident → Bool) (ident : Ident)
    (ds : List DriveModel) (model : DriveModel) (h : Heap)
    (hmodel : model.Presets ≠ none)
    (hcomp : ∀ d ∈ ds, isFamilyEntry d = true → d.CompiledRegexp ≠ none)
    (hmap : ∀ d ∈ ds, d.Family = "DEFAULT" → d.Presets ≠ none)
    (hex : ∃ d ∈ ds, matchesEntry Match ident d = true) :
    ∃ E ∈ ds, matchesEntry Match ident E = true ∧
      ∃ m h', lookupLoop Match ident ds model h = .ok (m, h') ∧ m.Family = E.Family := by
  induction ds generalizing model with
  | nil => simp at hex
  | cons d ds ih =>
    have hcomp' : ∀ x ∈ ds, isFamilyEntry x = true → x.CompiledRegexp ≠ none :=
      fun x hx => hcomp x (List.mem_cons_of_mem _ hx)
    have hmap' : ∀ x ∈ ds, x.Family = "DEFAULT" → x.Presets ≠ none :=
      fun x hx => hmap x (List.mem_cons_of_mem _ hx)
    have hlift : ∀ model', (∃ E ∈ ds, matchesEntry Match ident E = true ∧
          ∃ m h', lookupLoop Match ident ds model' h = .ok (m, h') ∧ m.Family = E.Family) →
        lookupLoop Match ident (d :: ds) model h = lookupLoop Match ident ds model' h →
        ∃ E ∈ d :: ds, matchesEntry Match ident E = true ∧
          ∃ m h', lookupLoop Match ident (d :: ds) model h = .ok (m, h') ∧
            m.Family = E.Family := by
      rintro model' ⟨E, hE, hEm, m, h', hrun, hfamily⟩ hstep
      exact ⟨E, List.mem_cons_of_mem _ hE, hEm, m, h', hstep ▸ hrun, hfamily⟩
    have htail : matchesEntry Match ident d = false →
        ∃ x ∈ ds, matchesEntry Match ident x = true := by
      intro hd
      obtain ⟨x, hx, hxm⟩ := hex
      rcases List.mem_cons.1 hx with rfl | hx'
      · rw [hd] at hxm
        cases hxm
      · exact ⟨x, hx', hxm⟩
    by_cases hp : isPlaceholder d = true
    · exact hlift model (ih model hmodel hcomp' hmap' (htail (by simp [matchesEntry,
        isFamilyEntry, hp]))) (lookupLoop_placeholder Match ident d ds model h hp)
    by_cases hdef : d.Family = "DEFAULT"
    · exact hlift d (ih d (hmap d (List.mem_cons_self _ _) hdef) hcomp' hmap'
        (htail (by simp [matchesEntry, isFamilyEntry, hdef])))
        (lookupLoop_default Match ident d ds model h hdef)
    have hfam : isFamilyEntry d = true := by simp [isFamilyEntry, hp, hdef]
    cases hre : d.CompiledRegexp with
    | none => exact absurd hre (hcomp d (List.mem_cons_self _ _) hfam)
    | some re =>
      by_cases hm : Match re ident = true
      · have hmatch : matchesEntry Match ident d = true := by
          simp [matchesEntry, hfam, patternMatches, hre, hm]
        refine ⟨d, List.mem_cons_self _ _, hmatch, withHeader model d,
          mergedHeap (rangePresets d.Presets h) model.Presets h, ?_, rfl⟩
        rw [lookupLoop_matches Match ident d ds model h hmatch,
          mergePresets_ok _ _ h (fun hn => absurd hn hmodel)]
      · have hrej : rejectsEntry Match ident d = true := by
          simp [rejectsEntry, hfam, patternRejects, hre, hm]
        exact hlift model (ih model hmodel hcomp' hmap' (htail (by simp [matchesEntry,
          hfam, patternMatches, hre, hm])))
          (lookupLoop_rejects Match ident d ds model h hrej)

/-- Claim C10, as the code has it.  In a catalog whose family entries have compiled matchers,
in which only placeholders precede the first `DEFAULT` entry and every `DEFAULT` entry
has a presets map, and which contains a family entry (neither `DEFAULT` nor a
placeholder) whose pattern matches the blob, `LookupDrive` returns a rule-set whose
`Family` is that of such an entry and is not `DEFAULT`. -/
theorem lookupDrive_family_of_match (Match : Regexp → Ident → Bool) (ident : Ident)
    (db : DriveDb) (pre : List DriveModel) (D : DriveModel) (rest : List DriveModel)
    (h : Heap)
    (hdb : db.Drives = pre ++ D :: rest)
    (hpre : ∀ x ∈ pre, isPlaceholder x = true)
    (hD : D.Family = "DEFAULT")
    (hcomp : ∀ d ∈ db.Drives, isFamilyEntry d = true → d.CompiledRegexp ≠ none)
    (hmap : ∀ d ∈ db.Drives, d.Family = "DEFAULT" → d.Presets ≠ none)
    (hex : ∃ d ∈ db.Drives, matchesEntry Match ident d = true) :
    ∃ E ∈ db.Drives, matchesEntry Match ident E = true ∧
      ∃ rs, resolve Match db h ident = .ok rs ∧ rs.Family = E.Family ∧
        rs.Family ≠ "DEFAULT" := by
  have hmem : ∀ x ∈ rest, x ∈ db.Drives := fun x hx => by
    rw [hdb]
    exact List.mem_append_right _ (List.mem_cons_of_mem _ hx)
  have hDmem : D ∈ db.Drives := by
    rw [hdb]
    exact List.mem_append_right _ (List.mem_cons_self _ _)
  have hex' : ∃ d ∈ rest, matchesEntry Match ident d = true := by
    obtain ⟨x, hx, hxm⟩ := hex
    rw [hdb] at hx
    rcases List.mem_append.1 hx with hx1 | hx2
    · simp [matchesEntry, isFamilyEntry, hpre x hx1] at hxm
    · rcases List.mem_cons.1 hx2 with rfl | hx3
      · simp [matchesEntry, isFamilyEntry, hD] at hxm
      · exact ⟨x, hx3, hxm⟩
  obtain ⟨E, hE, hEm, m, h', hrun, hfamily⟩ :=
    lookupLoop_returns_match Match ident rest D h (hmap D hDmem hD)
      (fun d hd => hcomp d (hmem d hd)) (fun d hd => hmap d (hmem d hd)) hex'
  have hstart : lookupLoop Match ident (pre ++ D :: rest) zeroModel h =
      lookupLoop Match ident rest D h := by
    rw [lookupLoop_rejects_append Match ident pre _ zeroModel h
      (fun x hx => by simp [rejectsEntry, hpre x hx]),
      lookupLoop_default Match ident D rest zeroModel h hD]
  have hcall : LookupDrive Match db h ident = .ok (m, h') := by
    unfold LookupDrive
    rw [hdb, hstart, hrun]
  refine ⟨E, hmem E hE, hEm, view h' m, by simp [resolve, hcall], hfamily, ?_⟩
  have hnd : E.Family ≠ "DEFAULT" := by
    simp only [matchesEntry, isFamilyEntry, Bool.and_eq_true, Bool.not_eq_true',
      decide_eq_false_iff_not] at hEm
    exact hEm.1.2
  show m.Family ≠ "DEFAULT"
  rw [hfamily]
  exact hnd

/-- Witness of C10: the sample catalog and an Acme device. -/
theorem lookupDrive_family_of_match_witness :
    (∃ d ∈ exDb.Drives, matchesEntry literalMatch exIdentAcme d = true) ∧
    ∃ E ∈ exDb.Drives, matchesEntry literalMatch exIdentAcme E = true ∧
      ∃ rs, resolve literalMatch exDb exHeap exIdentAcme = .ok rs ∧ rs.Family = E.Family ∧
        rs.Family ≠ "DEFAULT" :=
  ⟨by decide,
    lookupDrive_family_of_match literalMatch exIdentAcme exDb [exPlaceholder] exDefault
      [exZeta, exAcme, exAcmePro] exHeap rfl (by decide) rfl (by decide) (by decide)
      (by decide)⟩

/-- Claim C10 as stated fails.  The placeholder entry is not the `DEFAULT` entry and its
pattern matches the blob, and `LookupDrive` returns the `DEFAULT` family; and a matching
family entry with presets that precedes `DEFAULT` makes the call panic instead of
returning a family. -/
theorem lookupDrive_placeholder_match_returns_default :
    exPlaceholder.Family ≠ "DEFAULT" ∧
    patternMatches literalMatch (bytesOf "WDC WD10-EZEX") exPlaceholder = true ∧
    resolve literalMatch ⟨[exPlaceholder, exDefault]⟩ exHeap (bytesOf "WDC WD10-EZEX") =
      .ok { Family := "DEFAULT", ModelRegex := "-", FirmwareRegex := "-",
            WarningMsg := "Default settings",
            Presets := some [("9", ⟨"raw24(raw8)", "Power_On_Hours"⟩),
                             ("194", ⟨"raw48", "Temperature_Celsius"⟩)],
            CompiledRegexp := some ⟨"-"⟩ } ∧
    matchesEntry literalMatch exIdentAcme exAcme = true ∧
    resolve literalMatch ⟨[exAcme, exDefault]⟩ exHeap exIdentAcme = .error .nilMapWrite := by
  decide

/-! ## The pattern of the `DEFAULT` entry -/

theorem lookupLoop_congr_match (Match1 Match2 : Regexp → Ident → Bool) (ident : Ident)
    (ds : List DriveModel) (model : DriveModel) (h : Heap)
    (hagree : ∀ d ∈ ds, isFamilyEntry d = true →
      patternMatches Match1 ident d = patternMatches Match2 ident d) :
    lookupLoop Match1 ident ds model h = lookupLoop Match2 ident ds model h := by
  induction ds generalizing model with
  | nil => rfl
  | cons d ds ih =>
    have hds : ∀ x ∈ ds, isFamilyEntry x = true →
        patternMatches Match1 ident x = patternMatches Match2 ident x :=
      fun x hx => hagree x (List.mem_cons_of_mem _ hx)
    by_cases hp : isPlaceholder d = true
    · rw [lookupLoop_placeholder Match1 ident d ds model h hp,
        lookupLoop_placeholder Match2 ident d ds model h hp]
      exact ih model hds
    by_cases hdef : d.Family = "DEFAULT"
    · rw [lookupLoop_default Match1 ident d ds model h hdef,
        lookupLoop_default Match2 ident d ds model h hdef]
      exact ih d hds
    have hfam : isFamilyEntry d = true := by simp [isFamilyEntry, hp, hdef]
    have hd := hagree d (List.mem_cons_self _ _) hfam
    have hp' : HasPrefix d.Family "$Id" = false := by
      simpa [isPlaceholder] using hp
    cases hre : d.CompiledRegexp with
    | none => simp [lookupLoop, hp', hdef, hre]
    | some re =>
      simp only [patternMatches, hre] at hd
      simp only [lookupLoop, hp', hdef, hre, hd, ih model hds]
      simp

/-- Claim C11.  The pattern of the `DEFAULT` entry is never tried: two matching
relations that agree on the family entries of the catalog give the same result of
`LookupDrive`, whatever they say about the pattern of `DEFAULT`; and the loop, on
reaching a `DEFAULT` entry `D`, goes on to the later entries with `D` as the model,
whether or not the pattern of `D` matches the blob. -/
theorem lookupDrive_default_never_matched (Match1 Match2 : Regexp → Ident → Bool)
    (ident : Ident) (db : DriveDb) (h : Heap)
    (hagree : ∀ d ∈ db.Drives, isFamilyEntry d = true →
      patternMatches Match1 ident d = patternMatches Match2 ident d) :
    LookupDrive Match1 db h ident = LookupDrive Match2 db h ident ∧
    ∀ pre D rest, db.Drives = pre ++ D :: rest → (∀ x ∈ pre, isPlaceholder x = true) →
      D.Family = "DEFAULT" →
      LookupDrive Match1 db h ident = lookupLoop Match1 ident rest D h := by
  refine ⟨lookupLoop_congr_match Match1 Match2 ident db.Drives zeroModel h hagree, ?_⟩
  intro pre D rest hdb hpre hD
  unfold LookupDrive
  rw [hdb, lookupLoop_rejects_append Match1 ident pre _ zeroModel h
    (fun x hx => by simp [rejectsEntry, hpre x hx]),
    lookupLoop_default Match1 ident D rest zeroModel h hD]

/-- Witness of C11: the pattern `-` of the `DEFAULT` entry of the sample catalog
matches the blob, and the call goes on to the Acme entry, as it does under a relation
for which `-` matches nothing. -/
theorem lookupDrive_default_never_matched_witness :
    patternMatches literalMatch (bytesOf "ACME X-100") exDefault = true ∧
    patternMatches exNoHyphenMatch (bytesOf "ACME X-100") exDefault = false ∧
    LookupDrive literalMatch exDb exHeap (bytesOf "ACME X-100") =
      LookupDrive exNoHyphenMatch exDb exHeap (bytesOf "ACME X-100") ∧
    resolve literalMatch exDb exHeap (bytesOf "ACME X-100") =
      .ok { Family := "Acme SSDs", ModelRegex := "ACME", FirmwareRegex := "",
            WarningMsg := "",
            Presets := some [("9", ⟨"raw24(raw8)", "Power_On_Hours"⟩),
                             ("194", ⟨"tempminmax", "Temperature_Celsius"⟩),
                             ("233", ⟨"raw48", "Media_Wearout_Indicator"⟩)],
            CompiledRegexp := some ⟨"ACME"⟩ } :=
  ⟨by decide, by decide,
    (lookupDrive_default_never_matched literalMatch exNoHyphenMatch (bytesOf "ACME X-100")
      exDb exHeap (by decide)).1,
    by decide⟩

/-! ## No panic on a valid catalog -/

/-- The loop does not panic when every family entry still to visit has a compiled
matcher and finds a presets map in the model: the map of the nearest `DEFAULT` entry
before it, or the map of the current model when no `DEFAULT` entry is between. -/
theorem lookupLoop_no_fault (Match : Regexp → Ident → Bool) (ident : Ident)
    (ds : List DriveModel) (model : DriveModel) (h : Heap)
    (hcomp : ∀ d ∈ ds, isFamilyEntry d = true → d.CompiledRegexp ≠ none)
    (hmap : ∀ pre E post, ds = pre ++ E :: post → isFamilyEntry E = true →
      (∃ pre1 D pre2, pre = pre1 ++ D :: pre2 ∧ D.Family = "DEFAULT" ∧ D.Presets ≠ none ∧
        ∀ x ∈ pre2, x.Family ≠ "DEFAULT") ∨
      ((∀ x ∈ pre, x.Family ≠ "DEFAULT") ∧ model.Presets ≠ none)) :
    ∃ m h', lookupLoop Match ident ds model h = .ok (m, h') := by
  induction ds generalizing model with
  | nil => exact ⟨model, h, rfl⟩
  | cons d ds ih =>
    have hcomp' : ∀ x ∈ ds, isFamilyEntry x = true → x.CompiledRegexp ≠ none :=
      fun x hx => hcomp x (List.mem_cons_of_mem _ hx)
    -- the step over an entry that is not `DEFAULT` keeps the model
    have hkeep : d.Family ≠ "DEFAULT" →
        ∀ pre E post, ds = pre ++ E :: post → isFamilyEntry E = true →
          (∃ pre1 D pre2, pre = pre1 ++ D :: pre2 ∧ D.Family = "DEFAULT" ∧
            D.Presets ≠ none ∧ ∀ x ∈ pre2, x.Family ≠ "DEFAULT") ∨
          ((∀ x ∈ pre, x.Family ≠ "DEFAULT") ∧ model.Presets ≠ none) := by
      intro hd pre E post hsplit hE
      rcases hmap (d :: pre) E post (by rw [hsplit]; rfl) hE with
        ⟨pre1, D, pre2, hpre, hD, hDp, hpre2⟩ | ⟨hnone, hmodel⟩
      · cases pre1 with
        | nil =>
          simp only [List.nil_append, List.cons.injEq] at hpre
          exact absurd (hpre.1 ▸ hD) hd
        | cons a pre1 =>
          simp only [List.cons_append, List.cons.injEq] at hpre
          exact Or.inl ⟨pre1, D, pre2, hpre.2, hD, hDp, hpre2⟩
      · exact Or.inr ⟨fun x hx => hnone x (List.mem_cons_of_mem _ hx), hmodel⟩
    by_cases hp : isPlaceholder d = true
    · have hd : d.Family ≠ "DEFAULT" := by
        intro hd
        have hf : HasPrefix d.Family "$Id" = true := hp
        rw [hd, hasPrefix_default] at hf
        cases hf
      rw [lookupLoop_placeholder Match ident d ds model h hp]
      exact ih model hcomp' (hkeep hd)
    by_cases hdef : d.Family = "DEFAULT"
    · rw [lookupLoop_default Match ident d ds model h hdef]
      refine ih d hcomp' ?_
      intro pre E post hsplit hE
      rcases hmap (d :: pre) E post (by rw [hsplit]; rfl) hE with
        ⟨pre1, D, pre2, hpre, hD, hDp, hpre2⟩ | ⟨hnone, -⟩
      · cases pre1 with
        | nil =>
          simp only [List.nil_append, List.cons.injEq] at hpre
          refine Or.inr ⟨?_, ?_⟩
          · rw [hpre.2]
            exact hpre2
          · rw [hpre.1]
            exact hDp
        | cons a pre1 =>
          simp only [List.cons_append, List.cons.injEq] at hpre
          exact Or.inl ⟨pre1, D, pre2, hpre.2, hD, hDp, hpre2⟩
      · exact absurd hdef (hnone d (List.mem_cons_self _ _))
    have hfam : isFamilyEntry d = true := by simp [isFamilyEntry, hp, hdef]
    have hmodel : model.Presets ≠ none := by
      rcases hmap [] d ds rfl hfam with ⟨pre1, D, pre2, hpre, -⟩ | ⟨-, hmodel⟩
      · simp at hpre
      · exact hmodel
    cases hre : d.CompiledRegexp with
    | none => exact absurd hre (hcomp d (List.mem_cons_self _ _) hfam)
    | some re =>
      by_cases hm : Match re ident = true
      · have hmatch : matchesEntry Match ident d = true := by
          simp [matchesEntry, hfam, patternMatches, hre, hm]
        refine ⟨withHeader model d, mergedHeap (rangePresets d.Presets h) model.Presets h, ?_⟩
        rw [lookupLoop_matches Match ident d ds model h hmatch,
          mergePresets_ok _ _ h (fun hn => absurd hn hmodel)]
      · have hrej : rejectsEntry Match ident d = true := by
          simp [rejectsEntry, hfam, patternRejects, hre, hm]
        rw [lookupLoop_rejects Match ident d ds model h hrej]
        exact ih model hcomp' (hkeep hdef)

/-- A catalog that begins with placeholders and a `DEFAULT` entry with a presets map,
and has no further `DEFAULT` entry, has a `DEFAULT` entry with a presets map before
every family entry. -/
theorem defaultPrecedesFamilies_of_leading_default (pre : List DriveModel) (D : DriveModel)
    (rest : List DriveModel)
    (hpre : ∀ x ∈ pre, isPlaceholder x = true)
    (hD : D.Family = "DEFAULT") (hDp : D.Presets ≠ none)
    (hrest : ∀ x ∈ rest, x.Family ≠ "DEFAULT") :
    DefaultPrecedesFamilies (pre ++ D :: rest) := by
  intro pre' E post hsplit hE
  have hEnp : isPlaceholder E = false := by
    simp only [isFamilyEntry, Bool.and_eq_true, Bool.not_eq_true'] at hE
    exact hE.1
  have hEd : E.Family ≠ "DEFAULT" := by
    simp only [isFamilyEntry, Bool.and_eq_true, Bool.not_eq_true',
      decide_eq_false_iff_not] at hE
    exact hE.2
  rcases List.append_eq_append_iff.1 hsplit with ⟨as, has, hpost⟩ | ⟨cs, hcs, hDrest⟩
  · -- `pre' = pre ++ as`: `E` is `D` or comes after it
    cases as with
    | nil =>
      simp only [List.nil_append, List.cons.injEq] at hpost
      exact absurd (hpost.1 ▸ hD) hEd
    | cons a as =>
      simp only [List.cons_append, List.cons.injEq] at hpost
      refine ⟨pre, D, as, ?_, hD, hDp, ?_⟩
      · rw [has, hpost.1]
      · intro x hx
        exact hrest x (by rw [hpost.2]; exact List.mem_append_left _ hx)
  · -- `pre = pre' ++ cs`: `E` would be among the placeholders
    cases cs with
    | nil =>
      simp only [List.nil_append, List.cons.injEq] at hDrest
      exact absurd (hDrest.1 ▸ hD) hEd
    | cons c cs =>
      simp only [List.cons_append, List.cons.injEq] at hDrest
      have hmem : E ∈ pre := by
        rw [hcs, hDrest.1]
        exact List.mem_append_right _ (List.mem_cons_self _ _)
      rw [hpre E hmem] at hEnp
      cases hEnp

/-- Claim C17, as the code has it.  On a catalog in which every family entry has a
compiled matcher and the nearest `DEFAULT` entry before every family entry exists and
has a presets map, `LookupDrive` returns for every blob, without a write to a nil map
and without a call on a nil matcher; and on a catalog in which a matching family entry
with presets stands before `DEFAULT` the call panics on the nil map. -/
theorem lookupDrive_no_fault (Match : Regexp → Ident → Bool) (ident : Ident)
    (db : DriveDb) (h : Heap) (hvalid : ValidCatalog db) :
    (∃ m h', LookupDrive Match db h ident = .ok (m, h')) ∧
    ∃ E D h0 ident0,
      matchesEntry literalMatch ident0 E = true ∧ rangePresets E.Presets h0 ≠ [] ∧
      D.Family = "DEFAULT" ∧ D.Presets ≠ none ∧
      resolve literalMatch ⟨[E, D]⟩ h0 ident0 = .error .nilMapWrite := by
  refine ⟨?_, exAcme, exDefault, exHeap, exIdentAcme, by decide, by decide, rfl, by decide,
    by decide⟩
  exact lookupLoop_no_fault Match ident db.Drives zeroModel h hvalid.1
    (fun pre E post hsplit hE => Or.inl (hvalid.2 pre E post hsplit hE))

/-- Witness of C17: the sample catalog is valid. -/
theorem lookupDrive_no_fault_witness :
    ValidCatalog exDb ∧
    ∃ m h', LookupDrive literalMatch exDb exHeap exIdentAcme = .ok (m, h') :=
  have hvalid : ValidCatalog exDb :=
    ⟨by decide,
      defaultPrecedesFamilies_of_leading_default [exPlaceholder] exDefault
        [exZeta, exAcme, exAcmePro] (by decide) rfl (by decide) (by decide)⟩
  ⟨hvalid, (lookupDrive_no_fault literalMatch exIdentAcme exDb exHeap hvalid).1⟩

/-- Claim C17 as stated fails: in the catalog `[DEFAULT, DEFAULT without presets,
Acme]` every entry has a compiled matcher and the first entry, a `DEFAULT` entry with a
presets map, precedes the one family entry; the loop takes the second `DEFAULT` entry
as its model, and the call panics on its nil map. -/
theorem lookupDrive_fault_after_second_default :
    (∀ d ∈ [exDefault, exDefaultNil, exAcme], d.CompiledRegexp ≠ none) ∧
    [exDefault, exDefaultNil, exAcme].map isFamilyEntry = [false, false, true] ∧
    (∀ i, i < 3 → isFamilyEntry ([exDefault, exDefaultNil, exAcme].getD i zeroModel) = true →
      ∃ j, j < i ∧ ([exDefault, exDefaultNil, exAcme].getD j zeroModel).Family = "DEFAULT" ∧
        ([exDefault, exDefaultNil, exAcme].getD j zeroModel).Presets ≠ none) ∧
    exDefault.Family = "DEFAULT" ∧ exDefault.Presets ≠ none ∧
    exDefaultNil.Family = "DEFAULT" ∧ exDefaultNil.Presets = none ∧
    resolve literalMatch ⟨[exDefault, exDefaultNil, exAcme]⟩ exHeap exIdentAcme =
      .error .nilMapWrite := by
  decide

/-! ## Iteration order -/

theorem nodupKeys_of_perm (l1 l2 : PresetMap) (hnd : NodupKeys l1) (hperm : l1.Perm l2) :
    NodupKeys l2 :=
  ((hperm.map Prod.fst).nodup_iff).1 hnd

/-- Two orders of the same entries hold the same value at every id. -/
theorem mapGet_of_perm (l1 l2 : PresetMap) (hnd : NodupKeys l1) (hperm : l1.Perm l2)
    (id : String) : mapGet l1 id = mapGet l2 id := by
  have hnd2 := nodupKeys_of_perm l1 l2 hnd hperm
  by_cases hid : id ∈ l1.map Prod.fst
  · obtain ⟨e, he, rfl⟩ := List.mem_map.1 hid
    rw [mapGet_of_mem l1 hnd e he, mapGet_of_mem l2 hnd2 e (hperm.subset he)]
  · have hid2 : id ∉ l2.map Prod.fst := fun hmem =>
      hid ((hperm.map Prod.fst).symm.subset hmem)
    rw [mapGet_eq_none_of_not_mem l1 id hid, mapGet_eq_none_of_not_mem l2 id hid2]

/-- The merge of two orders of the same pairs into two maps that hold the same values
gives maps that hold the same values. -/
theorem mapGet_foldl_mergeEntry_congr (pairs1 pairs2 : List (String × AttrConv))
    (hnd : NodupKeys pairs1) (hperm : pairs1.Perm pairs2) (m1 m2 : PresetMap)
    (hm : ∀ id, mapGet m1 id = mapGet m2 id) (id : String) :
    mapGet (pairs1.foldl mergeEntry m1) id = mapGet (pairs2.foldl mergeEntry m2) id := by
  rw [mapGet_foldl_mergeEntry pairs1 hnd, mapGet_foldl_mergeEntry pairs2
    (nodupKeys_of_perm pairs1 pairs2 hnd hperm), mapGet_of_perm pairs1 pairs2 hnd hperm id,
    hm id]

theorem rangePresets_perm (presets : Option MapRef) (h1 h2 : Heap) (hsame : SameMaps h1 h2) :
    (rangePresets presets h1).Perm (rangePresets presets h2) := by
  cases presets with
  | none => exact List.Perm.refl _
  | some r => exact hsame r

theorem rangePresets_nodup (presets : Option MapRef) (h : Heap) (hwf : HeapWF h) :
    NodupKeys (rangePresets presets h) := by
  cases presets with
  | none => simp [rangePresets, NodupKeys]
  | some r => exact hwf r

theorem lookupLoop_order_independent (Match : Regexp → Ident → Bool) (ident : Ident)
    (ds : List DriveModel) (model : DriveModel) (h1 h2 : Heap)
    (hwf : HeapWF h1) (hsame : SameMaps h1 h2) :
    SameOutcome (lookupLoop Match ident ds model h1) (lookupLoop Match ident ds model h2) := by
  have hget : ∀ r id, mapGet (h1 r) id = mapGet (h2 r) id :=
    fun r id => mapGet_of_perm (h1 r) (h2 r) (hwf r) (hsame r) id
  induction ds generalizing model with
  | nil => exact ⟨rfl, hget⟩
  | cons d ds ih =>
    by_cases hp : isPlaceholder d = true
    · rw [lookupLoop_placeholder Match ident d ds model h1 hp,
        lookupLoop_placeholder Match ident d ds model h2 hp]
      exact ih model
    by_cases hdef : d.Family = "DEFAULT"
    · rw [lookupLoop_default Match ident d ds model h1 hdef,
        lookupLoop_default Match ident d ds model h2 hdef]
      exact ih d
    have hfam : isFamilyEntry d = true := by simp [isFamilyEntry, hp, hdef]
    have hp' : HasPrefix d.Family "$Id" = false := by
      simpa [isPlaceholder] using hp
    cases hre : d.CompiledRegexp with
    | none =>
      simp only [lookupLoop, hp', hdef, hre]
      exact rfl
    | some re =>
      by_cases hm : Match re ident = true
      · have hmatch : matchesEntry Match ident d = true := by
          simp [matchesEntry, hfam, patternMatches, hre, hm]
        have hperm := rangePresets_perm d.Presets h1 h2 hsame
        have hnd := rangePresets_nodup d.Presets h1 hwf
        rw [lookupLoop_matches Match ident d ds model h1 hmatch,
          lookupLoop_matches Match ident d ds model h2 hmatch]
        cases hP : model.Presets with
        | some r =>
          rw [mergePresets_some, mergePresets_some]
          refine ⟨rfl, fun r' id => ?_⟩
          by_cases hr : r' = r
          · subst hr
            rw [heapSet_same, heapSet_same]
            exact mapGet_foldl_mergeEntry_congr _ _ hnd hperm _ _ (hget r') id
          · rw [heapSet_other h1 r r' _ hr, heapSet_other h2 r r' _ hr]
            exact hget r' id
        | none =>
          cases hpairs1 : rangePresets d.Presets h1 with
          | nil =>
            rw [hpairs1] at hperm
            have hpairs2 : rangePresets d.Presets h2 = [] := (List.Perm.nil_eq hperm).symm
            rw [hpairs2]
            exact ⟨rfl, hget⟩
          | cons e rest =>
            rw [hpairs1] at hperm
            cases hpairs2 : rangePresets d.Presets h2 with
            | nil =>
              rw [hpairs2] at hperm
              exact absurd hperm.symm.nil_eq (by simp)
            | cons e2 rest2 => exact rfl
      · have hrej : rejectsEntry Match ident d = true := by
          simp [rejectsEntry, hfam, patternRejects, hre, hm]
        rw [lookupLoop_rejects Match ident d ds model h1 hrej,
          lookupLoop_rejects Match ident d ds model h2 hrej]
        exact ih model

/-- Claim C18.  Processing the pairs of the matched entry in two different orders
leaves merged maps that hold the same value at every id; and `LookupDrive` on two
heaps that hold the same maps with their entries in different order (two orders in
which `range` may visit them) has the same outcome: the same panic, or the same model
and the same value at every id of every map.  (Go maps hold each key once.) -/
theorem mergePresets_order_independent (m : PresetMap) (pairs1 pairs2 : List (String × AttrConv))
    (hnd : NodupKeys pairs1) (hperm : pairs1.Perm pairs2) :
    (∀ id, mapGet (pairs1.foldl mergeEntry m) id = mapGet (pairs2.foldl mergeEntry m) id) ∧
    (∀ r h, ∃ h1 h2, mergePresets pairs1 (some r) h = .ok h1 ∧
      mergePresets pairs2 (some r) h = .ok h2 ∧
      ∀ r' id, mapGet (h1 r') id = mapGet (h2 r') id) ∧
    ∀ (Match : Regexp → Ident → Bool) (ident : Ident) (db : DriveDb) (h1 h2 : Heap),
      HeapWF h1 → SameMaps h1 h2 →
      SameOutcome (LookupDrive Match db h1 ident) (LookupDrive Match db h2 ident) := by
  refine ⟨fun id => mapGet_foldl_mergeEntry_congr pairs1 pairs2 hnd hperm m m (fun _ => rfl) id,
    fun r h => ⟨_, _, mergePresets_some pairs1 r h, mergePresets_some pairs2 r h, ?_⟩,
    fun Match ident db h1 h2 hwf hsame =>
      lookupLoop_order_independent Match ident db.Drives zeroModel h1 h2 hwf hsame⟩
  intro r' id
  by_cases hr : r' = r
  · subst hr
    rw [heapSet_same, heapSet_same]
    exact mapGet_foldl_mergeEntry_congr pairs1 pairs2 hnd hperm _ _ (fun _ => rfl) id
  · rw [heapSet_other h r r' _ hr, heapSet_other h r r' _ hr]

theorem exHeap_sameMaps : SameMaps exHeap exHeapReordered := by
  intro r
  unfold exHeap exHeapReordered
  split_ifs <;> decide

/-- Witness of C18: the overrides of the Acme entry merged into the presets of
`DEFAULT` in both orders, and the Acme lookup on the sample catalog under two orders
of its maps. -/
theorem mergePresets_order_independent_witness :
    (exHeap 1).Perm (exHeapReordered 1) ∧ exHeap 1 ≠ exHeapReordered 1 ∧
    (∀ id, mapGet ((exHeap 1).foldl mergeEntry (exHeap 0)) id =
      mapGet ((exHeapReordered 1).foldl mergeEntry (exHeap 0)) id) ∧
    SameOutcome (LookupDrive literalMatch exDb exHeap exIdentAcme)
      (LookupDrive literalMatch exDb exHeapReordered exIdentAcme) :=
  have hw := mergePresets_order_independent (exHeap 0) (exHeap 1) (exHeapReordered 1)
    (by decide) (by decide)
  ⟨by decide, by decide, hw.1,
    hw.2.2 literalMatch exIdentAcme exDb exHeap exHeapReordered exHeap_wf exHeap_sameMaps⟩

/-! ## Loading a catalog -/

theorem openDriveDb_of_unmarshal (Unmarshal : String → Unmarshalled)
    (Compile : String → Except Error Regexp) (DbYaml dbYaml : String)
    (db : DriveDb) (heap : Heap)
    (hparse : Unmarshal (if dbYaml = "" then DbYaml else dbYaml) = ⟨db, heap, none⟩) :
    OpenDriveDb Unmarshal Compile DbYaml dbYaml =
      ⟨⟨db.Drives.map (compileEntry Compile)⟩, heap, none⟩ := by
  simp [OpenDriveDb, hparse]

theorem lookupLoop_all_reject (Match : Regexp → Ident → Bool) (ident : Ident)
    (ds : List DriveModel) (model : DriveModel) (h : Heap)
    (hds : ∀ x ∈ ds, rejectsEntry Match ident x = true) :
    lookupLoop Match ident ds model h = .ok (model, h) := by
  have := lookupLoop_rejects_append Match ident ds [] model h hds
  rw [List.append_nil] at this
  rw [this]
  rfl

/-- Claim C12, as the code has it.  `OpenDriveDb` does not look for a `DEFAULT`
entry: whenever the YAML decoder returns a catalog without error, `OpenDriveDb`
returns that catalog, each entry with the result of compiling its `ModelRegex`, and
the nil error; and on a loaded catalog in which every entry is a placeholder or a
family entry whose pattern rejects the blob (no `DEFAULT` entry among them),
`LookupDrive` returns the zero `DriveModel`. -/
theorem openDriveDb_no_default_check (Unmarshal : String → Unmarshalled)
    (Compile : String → Except Error Regexp) (DbYaml dbYaml : String)
    (db : DriveDb) (heap : Heap)
    (hparse : Unmarshal (if dbYaml = "" then DbYaml else dbYaml) = ⟨db, heap, none⟩) :
    (OpenDriveDb Unmarshal Compile DbYaml dbYaml).err = none ∧
    (OpenDriveDb Unmarshal Compile DbYaml dbYaml).db =
      ⟨db.Drives.map (compileEntry Compile)⟩ ∧
    (OpenDriveDb Unmarshal Compile DbYaml dbYaml).heap = heap ∧
    ∀ Match ident,
      (∀ d ∈ (OpenDriveDb Unmarshal Compile DbYaml dbYaml).db.Drives,
        rejectsEntry Match ident d = true) →
      LookupDrive Match (OpenDriveDb Unmarshal Compile DbYaml dbYaml).db heap ident =
        .ok (zeroModel, heap) := by
  rw [openDriveDb_of_unmarshal Unmarshal Compile DbYaml dbYaml db heap hparse]
  refine ⟨rfl, rfl, rfl, fun Match ident hrej => ?_⟩
  exact lookupLoop_all_reject Match ident _ zeroModel heap hrej

/-- Witness of C12: a document with one family entry and no `DEFAULT` entry. -/
theorem openDriveDb_no_default_check_witness :
    (∀ d ∈ (exUnmarshal "zeta.yaml").db.Drives, d.Family ≠ "DEFAULT") ∧
    (OpenDriveDb exUnmarshal exCompile "builtin.yaml" "zeta.yaml").err = none ∧
    (OpenDriveDb exUnmarshal exCompile "builtin.yaml" "zeta.yaml").db = ⟨[exZeta]⟩ ∧
    LookupDrive literalMatch (OpenDriveDb exUnmarshal exCompile "builtin.yaml" "zeta.yaml").db
      exHeap exIdentOther = .ok (zeroModel, exHeap) :=
  have hw := openDriveDb_no_default_check exUnmarshal exCompile "builtin.yaml" "zeta.yaml"
    ⟨[exZetaParsed]⟩ exHeap rfl
  ⟨by decide, hw.1, by decide, hw.2.2.2 literalMatch exIdentOther (by decide)⟩

/-- Claim C12 as stated fails: a parsed catalog without a `DEFAULT` entry is loaded
with the nil error, and `LookupDrive` resolves against it, to the family that matches
or to the zero rule-set. -/
theorem openDriveDb_accepts_missing_default :
    (∀ d ∈ (exUnmarshal "zeta.yaml").db.Drives, d.Family ≠ "DEFAULT") ∧
    (OpenDriveDb exUnmarshal exCompile "builtin.yaml" "zeta.yaml").err = none ∧
    (OpenDriveDb exUnmarshal exCompile "builtin.yaml" "zeta.yaml").db = ⟨[exZeta]⟩ ∧
    resolve literalMatch (OpenDriveDb exUnmarshal exCompile "builtin.yaml" "zeta.yaml").db
      (OpenDriveDb exUnmarshal exCompile "builtin.yaml" "zeta.yaml").heap (bytesOf "ZETA 9") =
      .ok { Family := "Zeta disks", ModelRegex := "ZETA", FirmwareRegex := "",
            WarningMsg := "", Presets := none, CompiledRegexp := some ⟨"ZETA"⟩ } ∧
    resolve literalMatch (OpenDriveDb exUnmarshal exCompile "builtin.yaml" "zeta.yaml").db
      (OpenDriveDb exUnmarshal exCompile "builtin.yaml" "zeta.yaml").heap exIdentOther =
      .ok { Family := "", ModelRegex := "", FirmwareRegex := "", WarningMsg := "",
            Presets := none, CompiledRegexp := none } := by
  decide

/-- Claim C13 fails on the code: the pattern `(` of the second entry does not compile,
and `OpenDriveDb` returns the nil error and a catalog in which that entry has no
compiled matcher; `LookupDrive` on that catalog panics on the nil matcher. -/
theorem openDriveDb_drops_compile_error :
    (exUnmarshal "broken.yaml").db.Drives.map DriveModel.ModelRegex = ["-", "("] ∧
    exCompile "(" = .error "error parsing regexp: missing closing )" ∧
    (OpenDriveDb exUnmarshal exCompile "builtin.yaml" "broken.yaml").err = none ∧
    (OpenDriveDb exUnmarshal exCompile "builtin.yaml" "broken.yaml").db.Drives.map
      DriveModel.CompiledRegexp = [some ⟨"-"⟩, none] ∧
    resolve literalMatch (OpenDriveDb exUnmarshal exCompile "builtin.yaml" "broken.yaml").db
      (OpenDriveDb exUnmarshal exCompile "builtin.yaml" "broken.yaml").heap exIdentOther =
      .error .nilRegexp := by
  decide

theorem idInRange_spec (id : String) (hid : idInRange id = true) :
    ∃ n, 1 ≤ n ∧ n ≤ 255 ∧ id = toString n := by
  unfold idInRange at hid
  cases hn : idNumber id with
  | none => simp [hn] at hid
  | some n =>
    simp only [hn, Bool.and_eq_true, decide_eq_true_eq] at hid
    exact ⟨n, hid.1.1, hid.1.2, hid.2.symm⟩

/-- Claim C19.  The built-in catalog `DbYaml` holds one entry, of family `DEFAULT`;
its preset ids are pairwise different decimal strings of numbers from 1 to 255, every
preset has a name that is not empty and a conversion of a known kind, id 194 is
`tempminmax`/`Temperature_Celsius` and id 9 is `raw24(raw8)`/`Power_On_Hours`; and
`OpenDriveDb` with the empty string loads it without error into a catalog on which
`LookupDrive` returns the `DEFAULT` entry for every blob. -/
theorem dbYaml_well_formed :
    DbYamlDrives.map DriveModel.Family = ["DEFAULT"] ∧
    DbYamlDrives.map DriveModel.Presets = [some 0] ∧
    DbYamlParsed.heap 0 = DbYamlPresets ∧
    DbYamlPresets.length = 64 ∧
    NodupKeys DbYamlPresets ∧
    (∀ e ∈ DbYamlPresets,
      (∃ n, 1 ≤ n ∧ n ≤ 255 ∧ e.1 = toString n) ∧ e.2.Name ≠ "" ∧ e.2.Conv ∈ knownKinds) ∧
    mapGet DbYamlPresets "194" = some ⟨"tempminmax", "Temperature_Celsius"⟩ ∧
    mapGet DbYamlPresets "9" = some ⟨"raw24(raw8)", "Power_On_Hours"⟩ ∧
    ∀ (Unmarshal : String → Unmarshalled) (Compile : String → Except Error Regexp)
      (DbYaml : String) (Match : Regexp → Ident → Bool) (ident : Ident),
      Unmarshal DbYaml = DbYamlParsed →
      (OpenDriveDb Unmarshal Compile DbYaml "").err = none ∧
      (OpenDriveDb Unmarshal Compile DbYaml "").db.Drives.map DriveModel.Family
        = ["DEFAULT"] ∧
      ∃ D, (OpenDriveDb Unmarshal Compile DbYaml "").db.Drives = [D] ∧
        LookupDrive Match (OpenDriveDb Unmarshal Compile DbYaml "").db
          (OpenDriveDb Unmarshal Compile DbYaml "").heap ident =
          .ok (D, (OpenDriveDb Unmarshal Compile DbYaml "").heap) ∧
        resolve Match (OpenDriveDb Unmarshal Compile DbYaml "").db
          (OpenDriveDb Unmarshal Compile DbYaml "").heap ident =
          .ok { Family := "DEFAULT", ModelRegex := "-", FirmwareRegex := "-",
                WarningMsg := "Default settings", Presets := some DbYamlPresets,
                CompiledRegexp := D.CompiledRegexp } := by
  refine ⟨rfl, rfl, rfl, by decide, by decide, ?_, by decide, by decide, ?_⟩
  · intro e he
    have hall : ∀ e ∈ DbYamlPresets,
        idInRange e.1 = true ∧ e.2.Name ≠ "" ∧ e.2.Conv ∈ knownKinds := by decide
    exact ⟨idInRange_spec e.1 (hall e he).1, (hall e he).2⟩
  · intro Unmarshal Compile DbYaml Match ident hparse
    have hopen := openDriveDb_of_unmarshal Unmarshal Compile DbYaml "" ⟨DbYamlDrives⟩
      DbYamlParsed.heap (by simpa using hparse)
    rw [hopen]
    have hrun : LookupDrive Match ⟨DbYamlDrives.map (compileEntry Compile)⟩
        DbYamlParsed.heap ident =
        .ok (compileEntry Compile DbYamlDefault, DbYamlParsed.heap) :=
      lookupLoop_no_match Match ident [] _ [] zeroModel DbYamlParsed.heap
        (by simp) rfl (by simp)
    refine ⟨rfl, rfl, compileEntry Compile DbYamlDefault, rfl, hrun, ?_⟩
    simp only [resolve, hrun]
    rfl

/-- Witness of C19: the built-in catalog loaded with the empty string, and the blob of
an Acme device. -/
theorem dbYaml_well_formed_witness :
    exUnmarshal "builtin.yaml" = DbYamlParsed ∧
    (OpenDriveDb exUnmarshal exCompile "builtin.yaml" "").err = none ∧
    resolve literalMatch (OpenDriveDb exUnmarshal exCompile "builtin.yaml" "").db
      (OpenDriveDb exUnmarshal exCompile "builtin.yaml" "").heap exIdentAcme =
      .ok { Family := "DEFAULT", ModelRegex := "-", FirmwareRegex := "-",
            WarningMsg := "Default settings", Presets := some DbYamlPresets,
            CompiledRegexp := some ⟨"-"⟩ } :=
  have hw := dbYaml_well_formed.2.2.2.2.2.2.2.2 exUnmarshal exCompile "builtin.yaml"
    literalMatch exIdentAcme rfl
  ⟨rfl, hw.1, by
    obtain ⟨D, hD, -, hres⟩ := hw.2.2
    have hDeq : D = compileEntry exCompile DbYamlDefault := by
      have : [compileEntry exCompile DbYamlDefault] = [D] := hD
      exact (List.cons.inj this).1.symm
    rw [hres, hDeq]
    rfl⟩

end Drivedb

/-! # Record layouts -/

namespace Smart

/-- Claim C14 fails on the code: the declared fields of `IdentifyDeviceData`, laid out
consecutively, occupy 508 bytes, not 512.  The named fields occupy 106 bytes and the
blank field `[512 - 110]byte` 402. -/
theorem identifyDeviceData_wire_size :
    sizeOfFields IdentifyDeviceData.wire = 508 ∧
    sizeOfFields IdentifyDeviceData.wire ≠ 512 ∧
    offsetOf "_" IdentifyDeviceData.wire = some 106 ∧
    widthOf "_" IdentifyDeviceData.wire = some 402 := by
  decide

/-- Claim C15.  The fields of `smartAttr` are 1, 2, 1, 1, 6 and 1 bytes wide, 12
bytes together; `smartPage` is a 2-byte version followed by an array of 30 such
entries, 362 bytes together; and entry `i` of the 30 starts at byte `2 + 12 * i`. -/
theorem smartPage_wire_layout :
    smartAttr.wire.map (fun f => (f.1, f.2.size)) =
      [("Id", 1), ("Flags", 2), ("Value", 1), ("Worst", 1), ("VendorBytes", 6),
       ("Reserved", 1)] ∧
    sizeOfFields smartAttr.wire = 12 ∧
    smartPage.wire = [("Version", .uint16), ("Attrs", .array 30 (.struct smartAttr.wire))] ∧
    offsetOf "Attrs" smartPage.wire = some 2 ∧
    sizeOfFields smartPage.wire = 2 + 30 * 12 ∧
    sizeOfFields smartPage.wire = 362 ∧
    (∀ i, i < 30 → elemOffset "Attrs" i smartPage.wire = some (2 + 12 * i)) ∧
    elemOffset "Attrs" 30 smartPage.wire = none := by
  refine ⟨by decide, by decide, rfl, by decide, by decide, by decide, ?_, by decide⟩
  intro i hi
  have hsz : sizeOfFields smartAttr.wire = 12 := by decide
  simp [smartPage.wire, elemOffset, hi, hsz, WireType.size, Nat.mul_comm]

/-- Witness of C15: the last entry of the page starts at byte 350. -/
theorem smartPage_wire_layout_witness :
    (29 : Nat) < 30 ∧ elemOffset "Attrs" 29 smartPage.wire = some (2 + 12 * 29) :=
  ⟨by decide, smartPage_wire_layout.2.2.2.2.2.2.1 29 (by decide)⟩

/-- Claim C20.  In the consecutive layout of `IdentifyDeviceData`, `SerialNumber`
occupies bytes 20 to 39 (words 10 to 19), `FirmwareRevision` bytes 46 to 53 (words 23
to 26), `ModelNumber` bytes 54 to 93 (words 27 to 46), and the named fields, all but
the blank block at the end, occupy 106 bytes: the blank block starts at byte 106. -/
theorem identifyDeviceData_string_offsets :
    byteRange "SerialNumber" IdentifyDeviceData.wire = some (20, 39) ∧
    wordRange "SerialNumber" IdentifyDeviceData.wire = some (10, 19) ∧
    byteRange "FirmwareRevision" IdentifyDeviceData.wire = some (46, 53) ∧
    wordRange "FirmwareRevision" IdentifyDeviceData.wire = some (23, 26) ∧
    byteRange "ModelNumber" IdentifyDeviceData.wire = some (54, 93) ∧
    wordRange "ModelNumber" IdentifyDeviceData.wire = some (27, 46) ∧
    (IdentifyDeviceData.wire.dropLast.map Prod.fst).all (fun n => decide (n ≠ "_")) = true ∧
    (IdentifyDeviceData.wire.getLast?.map Prod.fst) = some "_" ∧
    sizeOfFields IdentifyDeviceData.wire.dropLast = 106 ∧
    offsetOf "_" IdentifyDeviceData.wire = some 106 := by
  decide

/-! ## The decoder -/

theorem filterMap_populated (f : smartAttr → DecodedAttribute) (slots : List smartAttr) :
    slots.filterMap (fun a => if a.Id = 0 then none else some (f a)) =
      (slots.filter (fun a => decide (a.Id ≠ 0))).map f := by
  induction slots with
  | nil => rfl
  | cons a slots ih =>
    by_cases ha : a.Id = 0
    · simp [List.filterMap_cons, List.filter_cons, ha, ih]
    · simp [List.filterMap_cons, List.filter_cons, ha, ih]

theorem decodeSlot_id (registry : String → Option (smartAttr → Nat)) (raw48 : smartAttr → Nat)
    (presets : Drivedb.PresetMap) (a : smartAttr) :
    (decodeSlot registry raw48 presets a).id = a.Id ∧
    (decodeSlot registry raw48 presets a).raw = a.VendorBytes := by
  unfold decodeSlot
  dsimp only
  repeat' split
  all_goals exact ⟨rfl, rfl⟩

/-- Claim C16.  The decoder yields one decoded attribute for every slot whose id is
not 0, in the order of the slots, and nothing for a slot whose id is 0: its output is
the decoding of the populated slots in table order, the ids of its output are the
ids of the table that are not 0, in table order, and a table of 30 slots of which 5
have an id other than 0 yields 5 entries. -/
theorem decode_populated_slots (registry : String → Option (smartAttr → Nat))
    (raw48 : smartAttr → Nat) (rs : Drivedb.RuleSet) (page : smartPage) :
    decode registry raw48 rs page =
      (page.Attrs.filter (fun a => decide (a.Id ≠ 0))).map
        (decodeSlot registry raw48 (rs.Presets.getD [])) ∧
    (decode registry raw48 rs page).map DecodedAttribute.id =
      (page.Attrs.map smartAttr.Id).filter (fun i => decide (i ≠ 0)) ∧
    (∀ d ∈ decode registry raw48 rs page, d.id ≠ 0) ∧
    (page.Attrs.length = 30 →
      (page.Attrs.filter (fun a => decide (a.Id ≠ 0))).length = 5 →
      (decode registry raw48 rs page).length = 5) := by
  have hdec : decode registry raw48 rs page =
      (page.Attrs.filter (fun a => decide (a.Id ≠ 0))).map
        (decodeSlot registry raw48 (rs.Presets.getD [])) :=
    filterMap_populated _ page.Attrs
  have hids : (decode registry raw48 rs page).map DecodedAttribute.id =
      (page.Attrs.map smartAttr.Id).filter (fun i => decide (i ≠ 0)) := by
    rw [hdec, List.map_map, List.filter_map]
    apply List.map_congr_left
    intro a _
    exact (decodeSlot_id registry raw48 _ a).1
  refine ⟨hdec, hids, ?_, ?_⟩
  · intro d hd
    have hmem : d.id ∈ (decode registry raw48 rs page).map DecodedAttribute.id :=
      List.mem_map_of_mem _ hd
    rw [hids] at hmem
    simpa using (List.mem_filter.1 hmem).2
  · intro _ hfive
    rw [hdec, List.length_map, hfive]

/-- Witness of C16: a table with the ids 194, 9, 5, 233 and 1 in 5 of its 30 slots
yields 5 entries, in that order. -/
theorem decode_populated_slots_witness :
    exPage.Attrs.length = 30 ∧
    (exPage.Attrs.filter (fun a => decide (a.Id ≠ 0))).length = 5 ∧
    (decode exRegistry exRaw48 exRuleSet exPage).length = 5 ∧
    (decode exRegistry exRaw48 exRuleSet exPage).map DecodedAttribute.id
      = [194, 9, 5, 233, 1] ∧
    (decode exRegistry exRaw48 exRuleSet exPage).map DecodedAttribute.name
      = ["Temperature_Celsius", "Power_On_Hours", "Unknown_Attribute_5",
         "Unknown_Attribute_233", "Unknown_Attribute_1"] :=
  ⟨by decide, by decide,
    (decode_populated_slots exRegistry exRaw48 exRuleSet exPage).2.2.2 (by decide) (by decide),
    by decide, by decide⟩

end Smart
